import Mathlib

/-!
Verification of the hullcaster podcast-management core against its
natural-language specification.

The development shallowly embeds the relevant parts of the Rust source:

* `src/types.rs` — the shared ordered collection `LockVec` (the spec's
  "Catalog"): a hash map keyed by `i64` id plus a full id ordering and a
  filtered id ordering.  The hash map is modelled as an association list
  with unique keys (`insertEntry` replaces any previous binding, exactly
  as `HashMap::insert`); `i64` ids are modelled as `Int` (the claims never
  exercise overflow).  `Arc<RwLock<_>>` sharing is modelled by storing the
  value itself: the theorems below only inspect ids and fields that are
  written through the same code paths they read.
* `src/app.rs` — the controller operations `mark_played`,
  `update_position`, `mark_played_db_batch`, `download`,
  `download_complete`, the `DownloadMsg` error branches of `App::run`,
  `update_filters`, `update_unplayed` and the merge pass
  `gpodder_sync_pos`.  The database is an opaque collaborator; each
  fallible database call is modelled by a boolean outcome parameter, and
  `set_param` by a string key-value store.
* `src/gpodder/mod.rs` — cursor handling of `get_subscription_changes`,
  `get_episode_action_changes` and `get_timestamp`; the remote server is
  modelled as a function from the requested `since` value to a fallible
  response (transport failures and JSON-parse failures are collapsed into
  the error case).
* `src/feeds.rs` — `duration_to_int` together with the regex
  `(\d+)(?::(\d+))?(?::(\d+))?` (leftmost-greedy matching of this pattern
  is a scan to the first digit, a maximal digit run, then up to two
  optional `:`-digit-run groups).
* `src/player.rs` — the `Seek` clamping arithmetic of `Player::seek` and
  the empty-sink guard of `Player::spawn_async`.
* `src/feeds.rs` / `src/downloads.rs` / `src/gpodder/net.rs` — the shared
  decrement-then-compare retry loop, with `usize` subtraction modelled by
  explicit wrap-around mod 2^64.
-/

namespace Hullcaster

/-- Episode record (src/types.rs `Episode`).  Presentation-only metadata
(title, guid, description) is omitted; all fields read or written by the
verified operations are kept.  `pubdate` is a chrono timestamp in seconds,
`path` the optional downloaded file. -/
structure Episode where
  id : Int
  podId : Int
  url : String
  pubdate : Option Int
  duration : Option Int
  position : Int
  path : Option String
  played : Bool
deriving DecidableEq, Repr

instance {ε α : Type} [DecidableEq ε] [DecidableEq α] : DecidableEq (Except ε α) := fun a b =>
  match a, b with
  | Except.error x, Except.error y =>
    if h : x = y then isTrue (h ▸ rfl)
    else isFalse (fun hh => h (Except.error.inj hh))
  | Except.error _, Except.ok _ => isFalse (fun hh => Except.noConfusion hh)
  | Except.ok _, Except.error _ => isFalse (fun hh => Except.noConfusion hh)
  | Except.ok x, Except.ok y =>
    if h : x = y then isTrue (h ▸ rfl)
    else isFalse (fun hh => h (Except.ok.inj hh))

/-- The id part of the `Menuable` capability interface (src/types.rs). -/
class Menuable (α : Type) where
  getId : α → Int

instance : Menuable Episode := ⟨Episode.id⟩

/-- Association-list model of `HashMap<K, T>`: `insert` replaces any
existing binding for the key, as `HashMap::insert` does. -/
def insertEntry {κ α : Type} [BEq κ] (k : κ) (v : α) (l : List (κ × α)) : List (κ × α) :=
  (k, v) :: l.filter (fun e => e.1 != k)

/-- Lookup in the association-list model of the hash map. -/
def lookupEntry {κ α : Type} [BEq κ] (l : List (κ × α)) (k : κ) : Option α :=
  (l.find? (fun e => e.1 == k)).map (fun e => e.2)

/-- In-place overwrite of the value bound to an existing key, modelling a
mutation performed through `get_mut` and a lock-write on the shared item
(the binding keeps its place, only the value changes). -/
def updateEntry {κ α : Type} [BEq κ] (k : κ) (v : α) (l : List (κ × α)) : List (κ × α) :=
  l.map (fun e => if e.1 == k then (k, v) else e)

/-- Key set (as a list) of the hash-map model. -/
def keysOf {κ α : Type} (l : List (κ × α)) : List κ :=
  l.map Prod.fst

/-- Boolean test that every element of `l1` occurs in `l2`. -/
def subsetB (l1 l2 : List Int) : Bool :=
  l1.all (fun x => l2.contains x)

theorem subsetB_iff {l1 l2 : List Int} : subsetB l1 l2 = true ↔ ∀ x ∈ l1, x ∈ l2 := by
  simp [subsetB, List.all_eq_true]

/-- Shared ordered collection (src/types.rs `LockVec<T>`): the backing
map, the full id ordering and the filtered id ordering.  The three
independently lockable cells become three fields of one record; an
operation that in Rust locks all three and mutates them becomes a pure
function on this record. -/
structure LockVec (α : Type) where
  data : List (Int × α)
  order : List Int
  filteredOrder : List Int
deriving DecidableEq, Repr

namespace LockVec

/-- `LockVec::new`: insert every item keyed by its id, push every id onto
the order; the filtered order starts as a clone of the full order. -/
def new {α : Type} [Menuable α] (items : List α) : LockVec α :=
  { data := items.foldl (fun m i => insertEntry (Menuable.getId i) i m) []
    order := items.map Menuable.getId
    filteredOrder := items.map Menuable.getId }

/-- `LockVec::new_arc` builds the same structure from shared handles. -/
def new_arc {α : Type} [Menuable α] (items : List α) : LockVec α :=
  new items

/-- `LockVec::push`: insert into the map and append the id to both
orderings. -/
def push {α : Type} [Menuable α] (c : LockVec α) (item : α) : LockVec α :=
  { data := insertEntry (Menuable.getId item) item c.data
    order := c.order ++ [Menuable.getId item]
    filteredOrder := c.filteredOrder ++ [Menuable.getId item] }

/-- `LockVec::push_arc`: same mutation as `push`, taking a shared handle. -/
def push_arc {α : Type} [Menuable α] (c : LockVec α) (item : α) : LockVec α :=
  { data := insertEntry (Menuable.getId item) item c.data
    order := c.order ++ [Menuable.getId item]
    filteredOrder := c.filteredOrder ++ [Menuable.getId item] }

/-- `LockVec::remove`: remove the map binding and retain only other ids in
both orderings. -/
def remove {α : Type} (c : LockVec α) (id : Int) : LockVec α :=
  { data := c.data.filter (fun e => e.1 != id)
    order := c.order.filter (fun x => x != id)
    filteredOrder := c.filteredOrder.filter (fun x => x != id) }

/-- `LockVec::get` (by id). -/
def get {α : Type} (c : LockVec α) (id : Int) : Option α :=
  lookupEntry c.data id

/-- `LockVec::contains_key`. -/
def contains_key {α : Type} (c : LockVec α) (id : Int) : Bool :=
  (lookupEntry c.data id).isSome

/-- `LockVec::replace_all`: clear everything, then insert each item and
push its id onto both orderings. -/
def replace_all {α : Type} [Menuable α] (c : LockVec α) (items : List α) : LockVec α :=
  { data := items.foldl (fun m i => insertEntry (Menuable.getId i) i m) []
    order := items.map Menuable.getId
    filteredOrder := items.map Menuable.getId }

/-- `LockVec::replace_all_arc`: same as `replace_all`, from shared handles. -/
def replace_all_arc {α : Type} [Menuable α] (c : LockVec α) (items : List α) : LockVec α :=
  { data := items.foldl (fun m i => insertEntry (Menuable.getId i) i m) []
    order := items.map Menuable.getId
    filteredOrder := items.map Menuable.getId }

/-- `LockVec::reverse` (for episode lists): reverse both orderings. -/
def reverse {α : Type} (c : LockVec α) : LockVec α :=
  { data := c.data, order := c.order.reverse, filteredOrder := c.filteredOrder.reverse }

end LockVec

/-- Ordering used by `LockVec::<Episode>::sort` on `(DateTime, id)` pairs:
lexicographic comparison, pubdate first. -/
def pairLe (a b : Int × Int) : Bool :=
  a.1 < b.1 || (a.1 == b.1 && a.2 ≤ b.2)

/-- Insertion step of a stable sort on `(pubdate, id)` pairs. -/
def insertSorted (x : Int × Int) : List (Int × Int) → List (Int × Int)
  | [] => [x]
  | y :: ys => if pairLe x y then x :: y :: ys else y :: insertSorted x ys

/-- Sort modelling `Vec::sort` on `(pubdate, id)` pairs (the claims only
use that the result is a permutation — the key pairs are distinct, so any
correct sort yields the same list). -/
def sortPairs (l : List (Int × Int)) : List (Int × Int) :=
  l.foldr insertSorted []

theorem mem_insertSorted {x p : Int × Int} {l : List (Int × Int)} :
    p ∈ insertSorted x l ↔ p = x ∨ p ∈ l := by
  induction l with
  | nil => simp [insertSorted]
  | cons y ys ih =>
      by_cases h : pairLe x y = true
      · simp [insertSorted, h]
      · simp only [insertSorted, if_neg h, List.mem_cons, ih]
        tauto

theorem mem_sortPairs {p : Int × Int} {l : List (Int × Int)} :
    p ∈ sortPairs l ↔ p ∈ l := by
  induction l with
  | nil => simp [sortPairs]
  | cons y ys ih =>
      simp only [sortPairs, List.foldr_cons] at *
      rw [mem_insertSorted, ih, List.mem_cons]

namespace LockVec

/-- `LockVec::<Episode>::sort` (src/types.rs:496-528): collect
`(pubdate-or-epoch-0, id)` pairs from the map, sort them, and rebuild BOTH
orderings keeping only ids that were present in the filtered order. -/
def sort (c : LockVec Episode) : LockVec Episode :=
  let epvec := c.data.map (fun e => (e.2.pubdate.getD 0, e.1))
  let sorted := sortPairs epvec
  let norder := sorted.filterMap
    (fun p => if c.filteredOrder.contains p.2 then some p.2 else none)
  { data := c.data, order := norder, filteredOrder := norder }

/-- Replacement of the filtered order, as performed by
`App::update_filters` (src/app.rs:1134-1167): the new filtered order is a
`filter_map` over the full order keeping the ids of items accepted by the
active filters.  A missing id panics in the source ("Index error in
LockVec"); here it is skipped, a case the invariant below rules out. -/
def replace_filtered_order {α : Type} [Menuable α] (c : LockVec α) (keep : α → Bool) :
    LockVec α :=
  { c with
    filteredOrder := c.order.filterMap (fun id =>
      match lookupEntry c.data id with
      | some item => if keep item then some (Menuable.getId item) else none
      | none => none) }

/-- The Catalog invariant of the claim: the id set of the full order
equals the key set of the backing map, and the filtered order's id set is
a subset of it. -/
def Inv {α : Type} (c : LockVec α) : Prop :=
  subsetB c.order (keysOf c.data) = true ∧
  subsetB (keysOf c.data) c.order = true ∧
  subsetB c.filteredOrder (keysOf c.data) = true

instance {α : Type} (c : LockVec α) : Decidable (Inv c) := by
  unfold Inv; infer_instance

/-- Well-formedness tying map keys to item ids: every binding's key is the
bound item's id (true of every construction path in the source, where the
key inserted is always `item.get_id()`). -/
def WFids {α : Type} [Menuable α] (c : LockVec α) : Prop :=
  ∀ e ∈ c.data, Menuable.getId e.2 = e.1

instance {α : Type} [Menuable α] (c : LockVec α) : Decidable (WFids c) := by
  unfold WFids; infer_instance

end LockVec

/-- A single structural mutation of a Catalog, for reasoning about
insert/remove sequences. -/
inductive CatOp (α : Type) where
  | push : α → CatOp α
  | remove : Int → CatOp α

/-- Apply a sequence of insert/remove operations to a Catalog. -/
def LockVec.applyOps {α : Type} [Menuable α] (c : LockVec α) : List (CatOp α) → LockVec α
  | [] => c
  | CatOp.push x :: rest => applyOps (c.push x) rest
  | CatOp.remove i :: rest => applyOps (c.remove i) rest

theorem mem_keys_insertEntry {κ α : Type} [BEq κ] [LawfulBEq κ] {k x : κ} {v : α}
    {l : List (κ × α)} :
    x ∈ keysOf (insertEntry k v l) ↔ x = k ∨ x ∈ keysOf l := by
  simp only [insertEntry, keysOf, List.map_cons, List.mem_cons, List.mem_map,
    List.mem_filter, bne_iff_ne, ne_eq]
  constructor
  · rintro (rfl | ⟨e, ⟨he, _⟩, rfl⟩)
    · exact Or.inl rfl
    · exact Or.inr ⟨e, he, rfl⟩
  · rintro (rfl | ⟨e, he, rfl⟩)
    · exact Or.inl rfl
    · by_cases hk : e.1 = k
      · exact Or.inl hk
      · exact Or.inr ⟨e, ⟨he, hk⟩, rfl⟩

theorem mem_keys_filter_ne {κ α : Type} [BEq κ] [LawfulBEq κ] {i x : κ} {l : List (κ × α)} :
    x ∈ keysOf (l.filter (fun e => e.1 != i)) ↔ x ∈ keysOf l ∧ x ≠ i := by
  simp only [keysOf, List.mem_map, List.mem_filter, bne_iff_ne, ne_eq]
  constructor
  · rintro ⟨e, ⟨he, hne⟩, rfl⟩
    exact ⟨⟨e, he, rfl⟩, hne⟩
  · rintro ⟨⟨e, he, rfl⟩, hne⟩
    exact ⟨e, ⟨he, hne⟩, rfl⟩

theorem mem_filter_ne {i x : Int} {l : List Int} :
    x ∈ l.filter (fun y => y != i) ↔ x ∈ l ∧ x ≠ i := by
  simp [List.mem_filter]

theorem mem_keys_foldl_insert {α : Type} [Menuable α] {x : Int} (items : List α)
    (m0 : List (Int × α)) :
    x ∈ keysOf (items.foldl (fun m i => insertEntry (Menuable.getId i) i m) m0) ↔
      x ∈ keysOf m0 ∨ x ∈ items.map Menuable.getId := by
  induction items generalizing m0 with
  | nil => simp
  | cons y ys ih =>
      simp only [List.foldl_cons, List.map_cons, List.mem_cons]
      rw [ih, mem_keys_insertEntry]
      tauto

theorem lookupEntry_mem {κ α : Type} [BEq κ] [LawfulBEq κ] {l : List (κ × α)} {k : κ} {v : α}
    (h : lookupEntry l k = some v) : (k, v) ∈ l := by
  simp only [lookupEntry, Option.map_eq_some'] at h
  obtain ⟨e, he, rfl⟩ := h
  have hmem := List.mem_of_find?_eq_some he
  have hp := List.find?_some he
  simp only [beq_iff_eq] at hp
  rw [← hp]
  simpa using hmem

theorem lookup_insertEntry_self {κ α : Type} [BEq κ] [LawfulBEq κ] (k : κ) (v : α)
    (l : List (κ × α)) : lookupEntry (insertEntry k v l) k = some v := by
  simp [insertEntry, lookupEntry, List.find?]

theorem find?_key_filter_ne {κ α : Type} [BEq κ] [LawfulBEq κ] {k k' : κ} (h : k' ≠ k)
    (l : List (κ × α)) :
    (l.filter (fun e => e.1 != k)).find? (fun e => e.1 == k') =
      l.find? (fun e => e.1 == k') := by
  induction l with
  | nil => rfl
  | cons e es ih =>
      by_cases he : e.1 = k
      · rw [List.filter_cons_of_neg (by simp [he]),
          List.find?_cons_of_neg _ (by simp [he, Ne.symm h])]
        exact ih
      · rw [List.filter_cons_of_pos (by simp [he])]
        by_cases hk' : e.1 = k'
        · rw [List.find?_cons_of_pos _ (by simp [hk']),
            List.find?_cons_of_pos _ (by simp [hk'])]
        · rw [List.find?_cons_of_neg _ (by simp [hk']),
            List.find?_cons_of_neg _ (by simp [hk'])]
          exact ih

theorem lookup_insertEntry_ne {κ α : Type} [BEq κ] [LawfulBEq κ] {k k' : κ} (v : α)
    (l : List (κ × α)) (h : k' ≠ k) :
    lookupEntry (insertEntry k v l) k' = lookupEntry l k' := by
  simp only [insertEntry, lookupEntry]
  rw [List.find?_cons_of_neg _ (by simp [Ne.symm h]), find?_key_filter_ne h]

theorem lookup_updateEntry_self {κ α : Type} [BEq κ] [LawfulBEq κ] {k : κ} {v w : α}
    {l : List (κ × α)} (h : lookupEntry l k = some w) :
    lookupEntry (updateEntry k v l) k = some v := by
  induction l with
  | nil => simp [lookupEntry] at h
  | cons e es ih =>
      by_cases hk : e.1 = k
      · have hif : (if e.1 == k then (k, v) else e) = (k, v) := by simp [hk]
        simp only [updateEntry, List.map_cons, hif, lookupEntry]
        rw [List.find?_cons_of_pos _ (by simp)]
        rfl
      · have hif : (if e.1 == k then (k, v) else e) = e := by simp [hk]
        simp only [lookupEntry] at h
        rw [List.find?_cons_of_neg _ (by simp [hk])] at h
        simp only [updateEntry, List.map_cons, hif, lookupEntry]
        rw [List.find?_cons_of_neg _ (by simp [hk])]
        exact ih h

theorem lookup_updateEntry_ne {κ α : Type} [BEq κ] [LawfulBEq κ] {k k' : κ} (v : α)
    (l : List (κ × α)) (h : k' ≠ k) :
    lookupEntry (updateEntry k v l) k' = lookupEntry l k' := by
  induction l with
  | nil => rfl
  | cons e es ih =>
      by_cases hk : e.1 = k
      · have hif : (if e.1 == k then (k, v) else e) = (k, v) := by simp [hk]
        simp only [updateEntry, List.map_cons, hif, lookupEntry]
        rw [List.find?_cons_of_neg _ (by simp [Ne.symm h]),
          List.find?_cons_of_neg _ (by simp [hk, Ne.symm h])]
        exact ih
      · have hif : (if e.1 == k then (k, v) else e) = e := by simp [hk]
        simp only [updateEntry, List.map_cons, hif, lookupEntry]
        by_cases hk' : e.1 = k'
        · rw [List.find?_cons_of_pos _ (by simp [hk']),
            List.find?_cons_of_pos _ (by simp [hk'])]
        · rw [List.find?_cons_of_neg _ (by simp [hk']),
            List.find?_cons_of_neg _ (by simp [hk'])]
          exact ih

theorem lookup_filter_ne_self {κ α : Type} [BEq κ] [LawfulBEq κ] (k : κ)
    (l : List (κ × α)) : lookupEntry (l.filter (fun e => e.1 != k)) k = none := by
  simp only [lookupEntry]
  rw [List.find?_eq_none.mpr]
  · rfl
  · intro x hx
    rw [List.mem_filter] at hx
    simpa using hx.2

theorem contains_filter_ne_self (k : Int) (l : List Int) :
    (l.filter (fun x => x != k)).contains k = false := by
  have hmem : k ∉ l.filter (fun x => x != k) := by
    intro hc
    rw [List.mem_filter] at hc
    simp at hc
  exact Bool.eq_false_iff.mpr (fun hc => hmem (List.elem_iff.mp hc))

namespace LockVec

theorem inv_push {α : Type} [Menuable α] {c : LockVec α} (h : c.Inv) (x : α) :
    (c.push x).Inv := by
  obtain ⟨h1, h2, h3⟩ := h
  rw [subsetB_iff] at h1 h2 h3
  refine ⟨?_, ?_, ?_⟩ <;> rw [subsetB_iff] <;>
    intro y hy <;>
    simp only [push, mem_keys_insertEntry, List.mem_append, List.mem_singleton] at hy ⊢
  · rcases hy with hy | hy
    · exact Or.inr (h1 y hy)
    · exact Or.inl hy
  · rcases hy with hy | hy
    · exact Or.inr hy
    · exact Or.inl (h2 y hy)
  · rcases hy with hy | hy
    · exact Or.inr (h3 y hy)
    · exact Or.inl hy

theorem inv_push_arc {α : Type} [Menuable α] {c : LockVec α} (h : c.Inv) (x : α) :
    (c.push_arc x).Inv :=
  inv_push h x

theorem inv_remove {α : Type} {c : LockVec α} (h : c.Inv) (i : Int) :
    (c.remove i).Inv := by
  obtain ⟨h1, h2, h3⟩ := h
  rw [subsetB_iff] at h1 h2 h3
  refine ⟨?_, ?_, ?_⟩ <;> rw [subsetB_iff] <;>
    intro y hy <;>
    simp only [remove, mem_keys_filter_ne, mem_filter_ne] at hy ⊢
  · exact ⟨h1 y hy.1, hy.2⟩
  · exact ⟨h2 y hy.1, hy.2⟩
  · exact ⟨h3 y hy.1, hy.2⟩

theorem inv_replace_all {α : Type} [Menuable α] (c : LockVec α) (items : List α) :
    (c.replace_all items).Inv := by
  refine ⟨?_, ?_, ?_⟩ <;> rw [subsetB_iff] <;> intro y hy <;>
    simp only [replace_all] at hy ⊢
  · exact (mem_keys_foldl_insert items []).mpr (Or.inr hy)
  · rcases (mem_keys_foldl_insert items []).mp hy with h | h
    · simp [keysOf] at h
    · exact h
  · exact (mem_keys_foldl_insert items []).mpr (Or.inr hy)

theorem inv_replace_all_arc {α : Type} [Menuable α] (c : LockVec α) (items : List α) :
    (c.replace_all_arc items).Inv :=
  inv_replace_all c items

theorem inv_new {α : Type} [Menuable α] (items : List α) :
    (LockVec.new (α := α) items).Inv := by
  refine ⟨?_, ?_, ?_⟩ <;> rw [subsetB_iff] <;> intro y hy <;>
    simp only [LockVec.new] at hy ⊢
  · exact (mem_keys_foldl_insert items []).mpr (Or.inr hy)
  · rcases (mem_keys_foldl_insert items []).mp hy with h | h
    · simp [keysOf] at h
    · exact h
  · exact (mem_keys_foldl_insert items []).mpr (Or.inr hy)

theorem inv_reverse {α : Type} {c : LockVec α} (h : c.Inv) : c.reverse.Inv := by
  obtain ⟨h1, h2, h3⟩ := h
  rw [subsetB_iff] at h1 h2 h3
  refine ⟨?_, ?_, ?_⟩ <;> rw [subsetB_iff] <;>
    intro y hy <;>
    simp only [reverse, List.mem_reverse] at hy ⊢
  · exact h1 y hy
  · exact h2 y hy
  · exact h3 y hy

theorem inv_replace_filtered_order {α : Type} [Menuable α] {c : LockVec α}
    (h : c.Inv) (hwf : c.WFids) (keep : α → Bool) :
    (c.replace_filtered_order keep).Inv := by
  obtain ⟨h1, h2, _⟩ := h
  refine ⟨h1, h2, ?_⟩
  rw [subsetB_iff]
  intro y hy
  simp only [replace_filtered_order, List.mem_filterMap] at hy
  obtain ⟨id, hid, hmatch⟩ := hy
  cases hfind : lookupEntry c.data id with
  | none => rw [hfind] at hmatch; simp at hmatch
  | some item =>
      rw [hfind] at hmatch
      by_cases hkeep : keep item = true
      · simp only [hkeep, if_true, Option.some_inj] at hmatch
        have hmem := lookupEntry_mem hfind
        have := hwf (id, item) hmem
        subst hmatch
        simp only [this, keysOf, List.mem_map]
        exact ⟨(id, item), hmem, rfl⟩
      · simp only [hkeep] at hmatch; simp at hmatch

theorem mem_sort_order {c : LockVec Episode} {y : Int} :
    y ∈ c.sort.order ↔ y ∈ keysOf c.data ∧ y ∈ c.filteredOrder := by
  simp only [sort, List.mem_filterMap, mem_sortPairs, List.mem_map, keysOf]
  constructor
  · rintro ⟨p, ⟨e, he, rfl⟩, hif⟩
    split_ifs at hif with hc
    rw [Option.some_inj] at hif
    subst hif
    exact ⟨⟨e, he, rfl⟩, List.elem_iff.mp hc⟩
  · rintro ⟨⟨e, he, rfl⟩, hf⟩
    refine ⟨(e.2.pubdate.getD 0, e.1), ⟨e, he, rfl⟩, ?_⟩
    simp only [List.elem_iff.mpr hf, if_true]

theorem sort_filtered_eq_order (c : LockVec Episode) :
    c.sort.filteredOrder = c.sort.order := rfl

theorem sort_data_eq (c : LockVec Episode) : c.sort.data = c.data := rfl

theorem inv_sort {c : LockVec Episode} (h : c.Inv)
    (hfull : subsetB (keysOf c.data) c.filteredOrder = true) : c.sort.Inv := by
  obtain ⟨_, _, h3⟩ := h
  rw [subsetB_iff] at hfull h3
  refine ⟨?_, ?_, ?_⟩ <;> rw [subsetB_iff] <;> intro y hy
  · rw [sort_data_eq]
    exact ((mem_sort_order (c := c)).mp hy).1
  · rw [sort_data_eq] at hy
    exact (mem_sort_order (c := c)).mpr ⟨hy, hfull y hy⟩
  · rw [sort_data_eq]
    have : y ∈ c.sort.order := by rw [← sort_filtered_eq_order]; exact hy
    exact ((mem_sort_order (c := c)).mp this).1

theorem sort_subset_keys (c : LockVec Episode) :
    subsetB c.sort.order (keysOf c.sort.data) = true ∧
    subsetB c.sort.filteredOrder (keysOf c.sort.data) = true := by
  constructor <;> rw [subsetB_iff] <;> intro y hy
  · rw [sort_data_eq]
    exact ((mem_sort_order (c := c)).mp hy).1
  · rw [sort_data_eq]
    have : y ∈ c.sort.order := by rw [← sort_filtered_eq_order]; exact hy
    exact ((mem_sort_order (c := c)).mp this).1

theorem inv_applyOps {α : Type} [Menuable α] {c : LockVec α} (h : c.Inv)
    (ops : List (CatOp α)) : (c.applyOps ops).Inv := by
  induction ops generalizing c with
  | nil => exact h
  | cons op rest ih =>
      cases op with
      | push x => exact ih (inv_push h x)
      | remove i => exact ih (inv_remove h i)

end LockVec

/-- Concrete episode fixtures used by witnesses and counterexamples. -/
def ep1 : Episode :=
  { id := 1, podId := 1, url := "u1", pubdate := some 10, duration := some 100,
    position := 0, path := none, played := false }

def ep2 : Episode :=
  { id := 2, podId := 1, url := "u2", pubdate := some 20, duration := some 100,
    position := 0, path := none, played := true }

/-- A Catalog satisfying the invariant whose filtered order is a strict
subset of the key set (as after a filter change). -/
def c1ex : LockVec Episode :=
  { data := [(1, ep1), (2, ep2)], order := [1, 2], filteredOrder := [1] }

/-- C1 counterexample: `LockVec::<Episode>::sort` does NOT preserve the
invariant.  On a Catalog whose filtered order is a strict subset of the
key set (here ids {1,2} in the map, filtered order [1]), `sort` rebuilds
the FULL order keeping only ids present in the filtered order
(src/types.rs:511-527), so afterwards the full order [1] no longer covers
map key 2. -/
theorem c1_sort_breaks_inv :
    LockVec.Inv c1ex ∧ ¬ LockVec.Inv (LockVec.sort c1ex) := by
  decide

/-- C1 (amended): every LockVec operation except `sort` — push, push_arc,
remove, replace_all, replace_all_arc, reverse, and replacement of the
filtered order — preserves the invariant that the id set of the full
order equals the key set of the backing map and the filtered order is a
subset of it; `sort` preserves it exactly when the filtered order already
covers every map key (it always restores both orderings to subsets of the
key set, but shrinks the full order to the ids present in the filtered
order); and the invariant holds after every finite push/remove sequence
starting from `LockVec::new`. -/
theorem c1_catalog_ops_preserve_inv (c : LockVec Episode) (x : Episode) (i : Int)
    (items : List Episode) (keep : Episode → Bool) (ops : List (CatOp Episode))
    (hinv : c.Inv) (hwf : c.WFids) :
    (c.push x).Inv ∧ (c.push_arc x).Inv ∧ (c.remove i).Inv ∧
    (c.replace_all items).Inv ∧ (c.replace_all_arc items).Inv ∧
    c.reverse.Inv ∧ (c.replace_filtered_order keep).Inv ∧
    (subsetB (keysOf c.data) c.filteredOrder = true → c.sort.Inv) ∧
    subsetB c.sort.order (keysOf c.sort.data) = true ∧
    subsetB c.sort.filteredOrder (keysOf c.sort.data) = true ∧
    ((LockVec.new items).applyOps ops).Inv :=
  ⟨LockVec.inv_push hinv x, LockVec.inv_push_arc hinv x, LockVec.inv_remove hinv i,
   LockVec.inv_replace_all c items, LockVec.inv_replace_all_arc c items,
   LockVec.inv_reverse hinv, LockVec.inv_replace_filtered_order hinv hwf keep,
   fun hfull => LockVec.inv_sort hinv hfull,
   (LockVec.sort_subset_keys c).1, (LockVec.sort_subset_keys c).2,
   LockVec.inv_applyOps (LockVec.inv_new items) ops⟩

/-- Witness for `c1_catalog_ops_preserve_inv` at a concrete Catalog,
episode, id, item list, filter and operation sequence. -/
theorem c1_catalog_ops_preserve_inv_witness :
    LockVec.Inv c1ex ∧ LockVec.WFids c1ex ∧
    ((c1ex.push ep1).Inv ∧ (c1ex.push_arc ep1).Inv ∧ (c1ex.remove 2).Inv ∧
     (c1ex.replace_all [ep1, ep2]).Inv ∧ (c1ex.replace_all_arc [ep1, ep2]).Inv ∧
     c1ex.reverse.Inv ∧ (c1ex.replace_filtered_order (fun _ => true)).Inv ∧
     (subsetB (keysOf c1ex.data) c1ex.filteredOrder = true → c1ex.sort.Inv) ∧
     subsetB c1ex.sort.order (keysOf c1ex.sort.data) = true ∧
     subsetB c1ex.sort.filteredOrder (keysOf c1ex.sort.data) = true ∧
     ((LockVec.new [ep1, ep2]).applyOps [CatOp.push ep2, CatOp.remove 1]).Inv) :=
  ⟨by decide, by decide,
   c1_catalog_ops_preserve_inv c1ex ep1 2 [ep1, ep2] (fun _ => true)
     [CatOp.push ep2, CatOp.remove 1] (by decide) (by decide)⟩

/-! ### Controller state and operations (src/app.rs) -/

/-- Podcast record (src/types.rs `Podcast`); presentation metadata is
omitted, the fields used by the verified controller paths are kept. -/
structure Podcast where
  id : Int
  url : String
  episodes : LockVec Episode
deriving DecidableEq, Repr

instance : Menuable Podcast := ⟨Podcast.id⟩

/-- Filter status (src/types.rs `FilterStatus`). -/
inductive FilterStatus where
  | positiveCases
  | negativeCases
  | all
deriving DecidableEq, Repr

/-- Active filters (src/types.rs `Filters`). -/
structure Filters where
  played : FilterStatus
  downloaded : FilterStatus
deriving DecidableEq, Repr

/-- The per-episode predicate applied by `App::update_filters`
(src/app.rs:1145-1161): an episode is kept when neither the play-status
exclusion nor the download-status exclusion fires. -/
def episodePassesFilters (fl : Filters) (e : Episode) : Bool :=
  let playFilter :=
    match fl.played with
    | FilterStatus.all => false
    | FilterStatus.positiveCases => !e.played
    | FilterStatus.negativeCases => e.played
  let downloadFilter :=
    match fl.downloaded with
    | FilterStatus.all => false
    | FilterStatus.positiveCases => e.path.isNone
    | FilterStatus.negativeCases => e.path.isSome
  !(playFilter || downloadFilter)

/-- The slice of `App` state the verified operations touch: the podcast
Catalog, the derived unplayed view, the active filters, the in-flight
download-id set, and the database key-value params (`set_param`).  The
database itself is an opaque collaborator: each fallible call's outcome
is an explicit boolean parameter of the operation. -/
structure AppState where
  podcasts : LockVec Podcast
  unplayed : LockVec Episode
  filters : Filters
  downloadTracker : List Int
  params : List (String × String)
deriving DecidableEq, Repr

/-- Lookup of an episode through the podcast Catalog (the
`podcasts.get(pod_id)` / `episodes.get(ep_id)` chain). -/
def lookupEpisode (st : AppState) (podId epId : Int) : Option Episode :=
  (lookupEntry st.podcasts.data podId).bind (fun p => lookupEntry p.episodes.data epId)

/-- Write an updated episode back through the shared handles: the episode
binding and the podcast binding keep their places, only the values
change (a write through `Arc<RwLock<_>>`). -/
def writeEpisode (st : AppState) (podId : Int) (pod : Podcast) (epId : Int) (e : Episode) :
    AppState :=
  let pod' := { pod with episodes := { pod.episodes with
    data := updateEntry epId e pod.episodes.data } }
  { st with podcasts := { st.podcasts with
    data := updateEntry podId pod' st.podcasts.data } }

/-- `App::update_filters` (src/app.rs:1134-1167) on the non-debounced
path: replace every podcast's filtered episode order with the ids kept by
the active filters (the 200 ms `in_loop` debounce is timing behaviour
outside this embedding). -/
def update_filters (st : AppState) (fl : Filters) : AppState :=
  { st with podcasts := { st.podcasts with
    data := st.podcasts.data.map (fun p =>
      (p.1, { p.2 with
        episodes := p.2.episodes.replace_filtered_order (episodePassesFilters fl) })) } }

/-- `get_unplayed_episodes` (src/utils.rs:217-231): every episode of every
podcast whose played flag is false. -/
def get_unplayed_episodes (podcasts : LockVec Podcast) : List Episode :=
  podcasts.data.flatMap (fun p =>
    p.2.episodes.data.filterMap (fun e => if e.2.played then none else some e.2))

/-- `App::update_unplayed` (src/app.rs:319-326): optionally rebuild the
unplayed view from the podcast Catalog, then sort and reverse it. -/
def update_unplayed (st : AppState) (full : Bool) : AppState :=
  let u0 := if full
    then st.unplayed.replace_all_arc (get_unplayed_episodes st.podcasts)
    else st.unplayed
  { st with unplayed := u0.sort.reverse }

/-- The unplayed-view membership fix-up shared by `mark_played`,
`update_position` and `mark_all_played`: remove the id when the episode
is now played, push the episode when it is now unplayed and absent;
returns the new view and whether it changed. -/
def fixUnplayedMembership (unplayed : LockVec Episode) (epId : Int) (e : Episode) :
    LockVec Episode × Bool :=
  if e.played && unplayed.contains_key epId then
    (unplayed.remove epId, true)
  else if !e.played && !(unplayed.contains_key epId) then
    (unplayed.push_arc e, true)
  else
    (unplayed, false)

/-- The episode mutation of `App::mark_played` (src/app.rs:750-758): when
the flag actually changes, set it, and zero the position on the
played-to-unplayed transition. -/
def markPlayedEp (e : Episode) (played : Bool) : Episode :=
  if e.played != played
    then { e with played := played, position := if !played then 0 else e.position }
    else e

/-- `App::mark_played` (src/app.rs:737-795).  `dbOk` is the outcome of
`db.set_played_status`; a `false` outcome propagates an error through
`?`.  The outgoing gpodder message carries no catalog state and is not
modelled; notifications are likewise out of scope here. -/
def mark_played (st : AppState) (podId epId : Int) (played : Bool) (dbOk : Bool) :
    AppState × Except String Unit :=
  match lookupEntry st.podcasts.data podId with
  | none => (st, Except.error "Failed to get pod_id")
  | some pod =>
    match lookupEntry pod.episodes.data epId with
    | none => (st, Except.error "Failed to get ep_id")
    | some e =>
      let flagChanged := e.played != played
      let e' := markPlayedEp e played
      let st1 := writeEpisode st podId pod epId e'
      let fixRes := fixUnplayedMembership st1.unplayed epId e'
      let changed := flagChanged || fixRes.2
      let st2 := { st1 with unplayed := fixRes.1 }
      if !dbOk then (st2, Except.error "set_played_status failed")
      else
        let st3 := if changed then update_filters (update_unplayed st2 false) st2.filters else st2
        (st3, Except.ok ())

/-- The episode mutation of `App::update_position` (src/app.rs:687-697):
mark played only on the unplayed-to-played transition when the new
position equals the known duration; always overwrite the position.
Returns the new episode and the changed flag. -/
def updatePositionEp (e : Episode) (position : Int) : Episode × Bool :=
  match e.duration with
  | some d =>
    if !e.played && position == d
      then ({ e with played := true, position := position }, true)
      else ({ e with position := position }, false)
  | none => ({ e with position := position }, false)

/-- `App::update_position` (src/app.rs:674-728).  The played flag is set
only on the unplayed-to-played transition when the new position equals
the known duration; the position is always overwritten.  `dbOk` is the
outcome of `db.set_played_status`. -/
def update_position (st : AppState) (podId epId position : Int) (dbOk : Bool) :
    AppState × Except String Unit :=
  match lookupEntry st.podcasts.data podId with
  | none => (st, Except.error "Failed to get pod_id")
  | some pod =>
    match lookupEntry pod.episodes.data epId with
    | none => (st, Except.error "Failed to get ep_id")
    | some e =>
      let upd := updatePositionEp e position
      let e' := upd.1
      let st1 := writeEpisode st podId pod epId e'
      let fixRes := fixUnplayedMembership st1.unplayed epId e'
      let changed := upd.2 || fixRes.2
      let st2 := { st1 with unplayed := fixRes.1 }
      if !dbOk then (st2, Except.error "set_played_status failed")
      else
        let st3 := if changed then update_filters (update_unplayed st2 false) st2.filters else st2
        (st3, Except.ok ())

/-- The per-episode mutation of `App::mark_played_db_batch`
(src/app.rs:636-657): overwrite the position, adopt the action's total as
duration when none is known, then recompute the played flag as
`|duration - position| <= 1`; returns the new episode and whether the
flag changed. -/
def batchEpMutation (e : Episode) (pos tot : Int) : Episode × Bool :=
  let e1 := { e with position := pos }
  let e2 := if e1.duration.isNone then { e1 with duration := some tot } else e1
  let newPlayed :=
    match e2.duration with
    | none => e2.played
    | some d => decide ((d - pos).natAbs ≤ 1)
  ({ e2 with played := newPlayed }, e2.played != newPlayed)

/-- Group the update batch by podcast id in first-occurrence order
(src/app.rs:613-623; `HashMap` key order is arbitrary in Rust, and the
per-pod mutations commute, so a fixed order is a sound determinisation). -/
def groupByPod (updates : List (Int × Int × Int × Int)) :
    List (Int × List (Int × Int × Int)) :=
  updates.foldl (fun acc u =>
    if (acc.find? (fun g => g.1 == u.1)).isSome
      then acc.map (fun g => if g.1 == u.1 then (g.1, g.2 ++ [u.2]) else g)
      else acc ++ [(u.1, [u.2])]) []

/-- Apply one podcast's updates in order; a missing episode id aborts
(the `?` in the source) but mutations already performed persist, since
they went through the shared handles.  Returns the updated podcast, the
accumulated changed flag, and whether every lookup succeeded. -/
def applyPodBatch (pod : Podcast) : List (Int × Int × Int) → Podcast × Bool × Bool
  | [] => (pod, false, true)
  | u :: rest =>
    match lookupEntry pod.episodes.data u.1 with
    | none => (pod, false, false)
    | some e =>
      let mut1 := batchEpMutation e u.2.1 u.2.2
      let pod' := { pod with episodes := { pod.episodes with
        data := updateEntry u.1 mut1.1 pod.episodes.data } }
      let res := applyPodBatch pod' rest
      (res.1, mut1.2 || res.2.1, res.2.2)

/-- Process the grouped batch podcast by podcast; a missing podcast or
episode id stops processing (the `?`), keeping earlier mutations. -/
def processGroups (podcasts : LockVec Podcast) (changed : Bool) :
    List (Int × List (Int × Int × Int)) → LockVec Podcast × Bool × Bool
  | [] => (podcasts, changed, true)
  | g :: rest =>
    match lookupEntry podcasts.data g.1 with
    | none => (podcasts, changed, false)
    | some pod =>
      let res := applyPodBatch pod g.2
      let podcasts' := { podcasts with data := updateEntry g.1 res.1 podcasts.data }
      if res.2.2 then processGroups podcasts' (changed || res.2.1) rest
      else (podcasts', changed || res.2.1, false)

/-- `App::mark_played_db_batch` (src/app.rs:612-672).  A failing
`set_played_status_batch` call only raises a notification and does not
abort or roll back, so it has no state effect here; only a missing id
surfaces an error. -/
def mark_played_db_batch (st : AppState) (updates : List (Int × Int × Int × Int)) :
    AppState × Except String Unit :=
  let res := processGroups st.podcasts false (groupByPod updates)
  let st1 := { st with podcasts := res.1 }
  if !res.2.2 then (st1, Except.error "Failed to get id")
  else
    ((if res.2.1 then update_filters st1 st1.filters else st1), Except.ok ())

/-! ### Download dispatch and completion (src/app.rs, src/downloads.rs) -/

/-- `EpData` (src/downloads.rs:26-34): the per-episode descriptor handed
to download jobs and carried back in `DownloadMsg`. -/
structure EpData where
  id : Int
  podId : Int
  title : String
  url : String
  pubdate : Option Int
  filePath : Option String
  duration : Option Int
deriving DecidableEq, Repr

/-- The descriptor built in the single-episode branch of `App::download`
(src/app.rs:884-899): `duration` is always `None` there. -/
def epDataSingle (e : Episode) : EpData :=
  { id := e.id, podId := e.podId, title := "", url := e.url, pubdate := e.pubdate,
    filePath := none, duration := none }

/-- The descriptor built in the download-all branch (src/app.rs:907-922):
`duration` carries the episode's known duration. -/
def epDataAll (e : Episode) : EpData :=
  { id := e.id, podId := e.podId, title := "", url := e.url, pubdate := e.pubdate,
    filePath := none, duration := e.duration }

/-- Episode-data collection of `App::download`: the single-episode branch
fails on a missing id (the `ok_or_else`/`?`) and keeps the episode only
when it has no local file; the download-all branch `filter_map`s the full
order keeping undownloaded episodes. -/
def collectEpData (pod : Podcast) : Option Int → Option (List EpData)
  | some eid =>
    match lookupEntry pod.episodes.data eid with
    | none => none
    | some e => some (if e.path.isNone then [epDataSingle e] else [])
  | none => some (pod.episodes.order.filterMap (fun id =>
      match lookupEntry pod.episodes.data id with
      | some e => if e.path.isNone then some (epDataAll e) else none
      | none => none))

/-- `HashSet::insert` on the in-flight download-id set. -/
def trackerInsert (t : List Int) (i : Int) : List Int :=
  if t.contains i then t else t ++ [i]

/-- `App::download` (src/app.rs:868-959): collect candidate episodes,
retain those not already in the in-flight set, and — when any remain and
the podcast directory can be created (`dirOk`) — record their ids as in
flight and dispatch them.  Returns the new state, the list of dispatched
jobs, and the operation result. -/
def download (st : AppState) (podId : Int) (epId : Option Int) (dirOk : Bool) :
    AppState × List EpData × Except String Unit :=
  match lookupEntry st.podcasts.data podId with
  | none => (st, [], Except.error "Failed to get pod_id")
  | some pod =>
    match collectEpData pod epId with
    | none => (st, [], Except.error "ep_id does not exist")
    | some epData0 =>
      let epData := epData0.filter (fun d => !(st.downloadTracker.contains d.id))
      if epData.isEmpty then (st, [], Except.ok ())
      else if dirOk then
        let newTracker := epData.foldl (fun t d => trackerInsert t d.id) st.downloadTracker
        ({ st with downloadTracker := newTracker }, epData, Except.ok ())
      else (st, [], Except.ok ())

/-- `App::download_complete` (src/app.rs:962-995): persist the file path
(`insert_file`, outcome `dbOk`), write the path and probed duration into
the episode, and only then remove the id from the in-flight set; any
earlier failure returns through `?` with the id still marked in flight. -/
def download_complete (st : AppState) (epd : EpData) (dbOk : Bool) :
    AppState × Except String Unit :=
  match epd.filePath with
  | none => (st, Except.error "ep_data does not contain a file_path")
  | some fp =>
    if !dbOk then (st, Except.error "insert_file failed")
    else
      match lookupEntry st.podcasts.data epd.podId with
      | none => (st, Except.error "Failed to get pod_id")
      | some pod =>
        match lookupEntry pod.episodes.data epd.id with
        | none => (st, Except.error "Failed to get ep_data.id")
        | some e =>
          let newDur := match epd.duration with
            | some d => some d
            | none => e.duration
          let e' := { e with path := some fp, duration := newDur }
          let st1 := writeEpisode st epd.podId pod epd.id e'
          let st2 := { st1 with
            downloadTracker := st1.downloadTracker.filter (fun x => x != epd.id) }
          (update_filters st2 st2.filters, Except.ok ())

/-- The `DownloadMsg::ResponseError` branch of `App::run`
(src/app.rs:170-175): it emits a notification and nothing else — in
particular the in-flight set keeps the episode's id. -/
def handle_response_error (st : AppState) (ep : EpData) : AppState × String :=
  (st, "Error sending download request. " ++ ep.url)

/-- The `DownloadMsg::FileCreateError` branch of `App::run`
(src/app.rs:177-179): notification only. -/
def handle_file_create_error (st : AppState) (ep : EpData) : AppState × String :=
  (st, "Error creating file. " ++ ep.title)

/-- The `DownloadMsg::FileWriteError` branch of `App::run`
(src/app.rs:181-187): notification only. -/
def handle_file_write_error (st : AppState) (ep : EpData) : AppState × String :=
  (st, "Error downloading episode. " ++ ep.title)

/-! ### Supporting lemmas for the controller operations -/

theorem lookupEpisode_writeEpisode {st : AppState} {podId epId : Int} {pod : Podcast}
    {e e' : Episode} (hpod : lookupEntry st.podcasts.data podId = some pod)
    (hep : lookupEntry pod.episodes.data epId = some e) :
    lookupEpisode (writeEpisode st podId pod epId e') podId epId = some e' := by
  simp only [lookupEpisode, writeEpisode]
  rw [lookup_updateEntry_self hpod]
  simp only [Option.bind_eq_bind, Option.some_bind]
  exact lookup_updateEntry_self hep

theorem writeEpisode_unplayed (st : AppState) (podId : Int) (pod : Podcast) (epId : Int)
    (e : Episode) : (writeEpisode st podId pod epId e).unplayed = st.unplayed := rfl

@[simp]
theorem getId_episode (e : Episode) : Menuable.getId e = e.id := rfl

@[simp]
theorem getId_podcast (p : Podcast) : Menuable.getId p = p.id := rfl

theorem contains_key_fixUnplayed (u : LockVec Episode) (epId : Int) (e : Episode)
    (hid : e.id = epId) :
    ((fixUnplayedMembership u epId e).1.contains_key epId) = !e.played := by
  subst hid
  unfold fixUnplayedMembership
  cases hp : e.played with
  | true =>
      cases hc : u.contains_key e.id with
      | true =>
          simp only [hp, hc, Bool.and_self, if_true, Bool.not_true,
            LockVec.contains_key, LockVec.remove]
          rw [lookup_filter_ne_self]
          rfl
      | false => simp [hp, hc]
  | false =>
      cases hc : u.contains_key e.id with
      | true => simp [hp, hc]
      | false =>
          simp only [hp, hc, Bool.false_and, Bool.not_false, Bool.true_and,
            Bool.and_self, if_true, Bool.false_eq_true, if_false,
            LockVec.contains_key, LockVec.push_arc, getId_episode]
          rw [lookup_insertEntry_self]
          rfl

/-- The state and result of `mark_played` when the database write fails:
the episode mutation and the unplayed-membership fix-up have already
happened and are kept; the error is surfaced. -/
theorem mark_played_db_fail_eq {st : AppState} {podId epId : Int} {pod : Podcast}
    {e : Episode} (played : Bool) (hpod : lookupEntry st.podcasts.data podId = some pod)
    (hep : lookupEntry pod.episodes.data epId = some e) :
    mark_played st podId epId played false =
      ({ writeEpisode st podId pod epId (markPlayedEp e played) with
          unplayed := (fixUnplayedMembership st.unplayed epId (markPlayedEp e played)).1 },
        Except.error "set_played_status failed") := by
  simp only [mark_played, hpod, hep]
  rfl

/-- The state and result of `update_position` when the database write
fails: mutations already performed are kept; the error is surfaced. -/
theorem update_position_db_fail_eq {st : AppState} {podId epId : Int} {pod : Podcast}
    {e : Episode} (position : Int) (hpod : lookupEntry st.podcasts.data podId = some pod)
    (hep : lookupEntry pod.episodes.data epId = some e) :
    update_position st podId epId position false =
      ({ writeEpisode st podId pod epId (updatePositionEp e position).1 with
          unplayed :=
            (fixUnplayedMembership st.unplayed epId (updatePositionEp e position).1).1 },
        Except.error "set_played_status failed") := by
  simp only [update_position, hpod, hep]
  rfl

theorem markPlayedEp_played (e : Episode) (played : Bool) :
    (markPlayedEp e played).played = played := by
  unfold markPlayedEp
  by_cases h : e.played = played
  · simp [h]
  · have : (e.played != played) = true := by simp [h]
    simp [this]

theorem markPlayedEp_id (e : Episode) (played : Bool) :
    (markPlayedEp e played).id = e.id := by
  unfold markPlayedEp
  by_cases h : (e.played != played) = true <;> simp [h]

theorem markPlayedEp_position (e : Episode) (played : Bool) :
    (markPlayedEp e played).position =
      (if (e.played != played) && !played then 0 else e.position) := by
  unfold markPlayedEp
  cases hb : (e.played != played) with
  | true => cases hpl : played <;> simp [hb, hpl]
  | false => simp [hb]

theorem updatePositionEp_position (e : Episode) (position : Int) :
    (updatePositionEp e position).1.position = position := by
  unfold updatePositionEp
  cases e.duration with
  | none => rfl
  | some d =>
      by_cases h : (!e.played && position == d) = true <;> simp [h]

theorem updatePositionEp_id (e : Episode) (position : Int) :
    (updatePositionEp e position).1.id = e.id := by
  unfold updatePositionEp
  cases e.duration with
  | none => rfl
  | some d =>
      by_cases h : (!e.played && position == d) = true <;> simp [h]

theorem updatePositionEp_played (e : Episode) (position : Int) :
    (updatePositionEp e position).1.played = (e.played || (e.duration == some position)) := by
  unfold updatePositionEp
  cases hd : e.duration with
  | none => simp
  | some d =>
      cases hpl : e.played with
      | true => simp [hpl]
      | false =>
          by_cases hpos : position = d
          · simp [hpl, hpos]
          · have hne : ¬ ((d : Int) = position) := fun hh => hpos hh.symm
            simp [hpl, hpos, hne]

/-! ### C2: database failure during mark_played / update_position -/

/-- Podcast fixture holding `ep1` (unplayed) and `ep2` (played). -/
def pod1 : Podcast := { id := 1, url := "A", episodes := LockVec.new [ep1, ep2] }

/-- App-state fixture: one podcast, unplayed view holding `ep1`. -/
def st2ex : AppState :=
  { podcasts := LockVec.new [pod1], unplayed := LockVec.new [ep1],
    filters := { played := FilterStatus.all, downloaded := FilterStatus.all },
    downloadTracker := [], params := [] }

/-- C2 counterexample: when `db.set_played_status` fails inside
`mark_played`, the error is surfaced but the in-memory state is NOT left
unchanged — the episode was mutated and dropped from the unplayed view
before the database call (src/app.rs:750-770), and nothing rolls that
back. -/
theorem c2_db_failure_changes_state :
    (mark_played st2ex 1 1 true false).2 = Except.error "set_played_status failed" ∧
    (lookupEpisode (mark_played st2ex 1 1 true false).1 1 1).map Episode.played =
      some true ∧
    (lookupEpisode st2ex 1 1).map Episode.played = some false ∧
    (mark_played st2ex 1 1 true false).1.unplayed.contains_key 1 = false ∧
    st2ex.unplayed.contains_key 1 = true := by
  decide

/-- C2 (amended): when the database write fails during `mark_played` or
`update_position`, the operation surfaces the error, but the in-memory
mutations already performed before the database call are kept: the
episode's played flag and position hold the NEW values and its
unplayed-view membership matches the new flag; only the post-write steps
(unplayed re-sort, filter refresh, sync message) are skipped. -/
theorem c2_db_failure_error_and_mutations (st : AppState) (podId epId : Int)
    (played : Bool) (pos : Int) (pod : Podcast) (e : Episode)
    (hpod : lookupEntry st.podcasts.data podId = some pod)
    (hep : lookupEntry pod.episodes.data epId = some e)
    (hid : e.id = epId) :
    ((mark_played st podId epId played false).2 =
        Except.error "set_played_status failed" ∧
      (lookupEpisode (mark_played st podId epId played false).1 podId epId).map
          Episode.played = some played ∧
      (lookupEpisode (mark_played st podId epId played false).1 podId epId).map
          Episode.position =
        some (if (e.played != played) && !played then 0 else e.position) ∧
      (mark_played st podId epId played false).1.unplayed.contains_key epId = !played) ∧
    ((update_position st podId epId pos false).2 =
        Except.error "set_played_status failed" ∧
      (lookupEpisode (update_position st podId epId pos false).1 podId epId).map
          Episode.position = some pos ∧
      (lookupEpisode (update_position st podId epId pos false).1 podId epId).map
          Episode.played = some (e.played || (e.duration == some pos)) ∧
      (update_position st podId epId pos false).1.unplayed.contains_key epId =
        !(e.played || (e.duration == some pos))) := by
  have hm := mark_played_db_fail_eq played hpod hep
  have hu := update_position_db_fail_eq pos hpod hep
  have hmepid : (markPlayedEp e played).id = epId := by rw [markPlayedEp_id, hid]
  have hupid : (updatePositionEp e pos).1.id = epId := by rw [updatePositionEp_id, hid]
  have h1 : lookupEpisode (mark_played st podId epId played false).1 podId epId =
      some (markPlayedEp e played) := by
    rw [hm]; exact lookupEpisode_writeEpisode hpod hep
  have h2 : (mark_played st podId epId played false).1.unplayed =
      (fixUnplayedMembership st.unplayed epId (markPlayedEp e played)).1 := by
    rw [hm]
  have h3 : lookupEpisode (update_position st podId epId pos false).1 podId epId =
      some (updatePositionEp e pos).1 := by
    rw [hu]; exact lookupEpisode_writeEpisode hpod hep
  have h4 : (update_position st podId epId pos false).1.unplayed =
      (fixUnplayedMembership st.unplayed epId (updatePositionEp e pos).1).1 := by
    rw [hu]
  refine ⟨⟨?_, ?_, ?_, ?_⟩, ?_, ?_, ?_, ?_⟩
  · rw [hm]
  · rw [h1, Option.map_some', markPlayedEp_played]
  · rw [h1, Option.map_some', markPlayedEp_position]
  · rw [h2, contains_key_fixUnplayed _ _ _ hmepid, markPlayedEp_played]
  · rw [hu]
  · rw [h3, Option.map_some', updatePositionEp_position]
  · rw [h3, Option.map_some', updatePositionEp_played]
  · rw [h4, contains_key_fixUnplayed _ _ _ hupid, updatePositionEp_played]

/-- Witness for `c2_db_failure_error_and_mutations` at the concrete
fixture state. -/
theorem c2_db_failure_error_and_mutations_witness :
    lookupEntry st2ex.podcasts.data 1 = some pod1 ∧
    lookupEntry pod1.episodes.data 1 = some ep1 ∧
    ep1.id = 1 ∧
    (((mark_played st2ex 1 1 true false).2 =
        Except.error "set_played_status failed" ∧
      (lookupEpisode (mark_played st2ex 1 1 true false).1 1 1).map
          Episode.played = some true ∧
      (lookupEpisode (mark_played st2ex 1 1 true false).1 1 1).map
          Episode.position =
        some (if (ep1.played != true) && !true then 0 else ep1.position) ∧
      (mark_played st2ex 1 1 true false).1.unplayed.contains_key 1 = !true) ∧
    ((update_position st2ex 1 1 5 false).2 =
        Except.error "set_played_status failed" ∧
      (lookupEpisode (update_position st2ex 1 1 5 false).1 1 1).map
          Episode.position = some 5 ∧
      (lookupEpisode (update_position st2ex 1 1 5 false).1 1 1).map
          Episode.played = some (ep1.played || (ep1.duration == some 5)) ∧
      (update_position st2ex 1 1 5 false).1.unplayed.contains_key 1 =
        !(ep1.played || (ep1.duration == some 5)))) :=
  ⟨by decide, by decide, by decide,
   c2_db_failure_error_and_mutations st2ex 1 1 true 5 pod1 ep1
     (by decide) (by decide) (by decide)⟩

/-! ### C3: the in-flight download-id set -/

/-- EpData fixture for episode 1 (with a resolved file path, as carried
by a completion or failure message). -/
def epd1 : EpData :=
  { id := 1, podId := 1, title := "t1", url := "u1", pubdate := some 10,
    filePath := some "p1", duration := none }

/-- App-state fixture with episode 1 marked in flight. -/
def st3ex : AppState := { st2ex with downloadTracker := [1] }

/-- C3 counterexample: the `DownloadMsg` failure branches of `App::run`
(src/app.rs:170-187) only emit a notification — they do NOT remove the
episode id from the in-flight set, contradicting the claim that the id is
removed exactly when a completion or failure message is processed. -/
theorem c3_failure_msgs_keep_inflight :
    st3ex.downloadTracker.contains 1 = true ∧
    (handle_response_error st3ex epd1).1.downloadTracker.contains 1 = true ∧
    (handle_file_create_error st3ex epd1).1.downloadTracker.contains 1 = true ∧
    (handle_file_write_error st3ex epd1).1.downloadTracker.contains 1 = true := by
  decide

theorem download_dispatch_not_inflight (st : AppState) (podId : Int) (oe : Option Int)
    (dirOk : Bool) :
    ∀ d ∈ (download st podId oe dirOk).2.1, st.downloadTracker.contains d.id = false := by
  intro d hd
  unfold download at hd
  cases hpod : lookupEntry st.podcasts.data podId with
  | none => simp only [hpod] at hd; simp at hd
  | some pod =>
      simp only [hpod] at hd
      cases hc : collectEpData pod oe with
      | none => simp only [hc] at hd; simp at hd
      | some l =>
          simp only [hc] at hd
          by_cases he : (l.filter (fun d => !(st.downloadTracker.contains d.id))).isEmpty = true
          · rw [if_pos he] at hd
            simp at hd
          · rw [if_neg he] at hd
            cases hdir : dirOk with
            | false =>
                rw [hdir] at hd
                simp at hd
            | true =>
                rw [hdir] at hd
                simp only [if_true] at hd
                have hm := List.mem_filter.mp hd
                simpa using hm.2

theorem contains_append_self (t : List Int) (i : Int) : (t ++ [i]).contains i = true :=
  List.elem_iff.mpr (by simp)

theorem download_single_dispatch {st : AppState} {podId epId : Int} {pod : Podcast}
    {e : Episode} (hpod : lookupEntry st.podcasts.data podId = some pod)
    (hep : lookupEntry pod.episodes.data epId = some e) (hpath : e.path = none)
    (htr : st.downloadTracker.contains e.id = false) :
    download st podId (some epId) true =
      ({ st with downloadTracker := st.downloadTracker ++ [e.id] },
        [epDataSingle e], Except.ok ()) := by
  have hnm : e.id ∉ st.downloadTracker := by
    intro hm
    have h2 : st.downloadTracker.contains e.id = true := List.elem_iff.mpr hm
    rw [htr] at h2
    cases h2
  simp only [download, collectEpData, hpod, hep, hpath, Option.isNone_none, if_true]
  simp [epDataSingle, hnm, trackerInsert]

theorem download_single_repeat_nothing {st : AppState} {podId epId : Int} {pod : Podcast}
    {e : Episode} (hpod : lookupEntry st.podcasts.data podId = some pod)
    (hep : lookupEntry pod.episodes.data epId = some e) (hpath : e.path = none)
    (htr : st.downloadTracker.contains e.id = true) :
    (download st podId (some epId) true).2.1 = [] := by
  have hm : e.id ∈ st.downloadTracker := List.elem_iff.mp htr
  simp only [download, collectEpData, hpod, hep, hpath, Option.isNone_none, if_true]
  simp [epDataSingle, hm]

theorem download_complete_ok_clears {st : AppState} {epd : EpData} {fp : String}
    {pod : Podcast} {e : Episode} (hfp : epd.filePath = some fp)
    (hpod : lookupEntry st.podcasts.data epd.podId = some pod)
    (hep : lookupEntry pod.episodes.data epd.id = some e) :
    (download_complete st epd true).2 = Except.ok () ∧
    (download_complete st epd true).1.downloadTracker.contains epd.id = false := by
  constructor
  · simp only [download_complete, hfp, hpod, hep, Bool.not_true, Bool.false_eq_true,
      if_false]
  · simp only [download_complete, hfp, hpod, hep, Bool.not_true, Bool.false_eq_true,
      if_false]
    exact contains_filter_ne_self epd.id st.downloadTracker

theorem download_complete_db_fail_keeps (st : AppState) (epd : EpData) (fp : String)
    (hfp : epd.filePath = some fp) :
    download_complete st epd false = (st, Except.error "insert_file failed") := by
  simp only [download_complete, hfp, Bool.not_false, if_true]

/-- C3 (amended): while an episode id is in the in-flight set, a further
Download or DownloadAll request dispatches no job for it (two requests for
the same episode while the first is in flight dispatch exactly one job);
the id is removed only when a COMPLETION message is processed whose
database insert and catalog lookups succeed — the failure messages
(ResponseError, FileCreateError, FileWriteError) and a failing completion
leave the in-flight set unchanged. -/
theorem c3_inflight_set_behaviour
    (st : AppState) (podId epId : Int) (oe : Option Int) (dirOk : Bool)
    (pod : Podcast) (e : Episode) (epd : EpData) (fp : String) (pod2 : Podcast)
    (e2 : Episode)
    (hpod : lookupEntry st.podcasts.data podId = some pod)
    (hep : lookupEntry pod.episodes.data epId = some e)
    (hpath : e.path = none)
    (htr : st.downloadTracker.contains e.id = false)
    (hfp : epd.filePath = some fp)
    (hcpod : lookupEntry st.podcasts.data epd.podId = some pod2)
    (hcep : lookupEntry pod2.episodes.data epd.id = some e2) :
    (∀ d ∈ (download st podId oe dirOk).2.1,
      st.downloadTracker.contains d.id = false) ∧
    (download st podId (some epId) true).2.1 = [epDataSingle e] ∧
    (download (download st podId (some epId) true).1 podId (some epId) true).2.1 = [] ∧
    (download_complete st epd true).2 = Except.ok () ∧
    (download_complete st epd true).1.downloadTracker.contains epd.id = false ∧
    (download_complete st epd false).1 = st ∧
    (handle_response_error st epd).1 = st ∧
    (handle_file_create_error st epd).1 = st ∧
    (handle_file_write_error st epd).1 = st := by
  have h1 := download_single_dispatch hpod hep hpath htr
  have hfirst : (download st podId (some epId) true).2.1 = [epDataSingle e] := by
    rw [h1]
  have hst1 : (download st podId (some epId) true).1 =
      { st with downloadTracker := st.downloadTracker ++ [e.id] } := by
    rw [h1]
  have hsecond :
      (download (download st podId (some epId) true).1 podId (some epId) true).2.1 = [] := by
    rw [hst1]
    exact download_single_repeat_nothing hpod hep hpath (contains_append_self _ _)
  have hcomp := download_complete_ok_clears hfp hcpod hcep
  refine ⟨download_dispatch_not_inflight st podId oe dirOk, hfirst, hsecond,
    hcomp.1, hcomp.2, ?_, rfl, rfl, rfl⟩
  rw [download_complete_db_fail_keeps st epd fp hfp]

/-- Witness for `c3_inflight_set_behaviour` at the concrete fixture. -/
theorem c3_inflight_set_behaviour_witness :
    lookupEntry st2ex.podcasts.data 1 = some pod1 ∧
    lookupEntry pod1.episodes.data 1 = some ep1 ∧
    ep1.path = none ∧
    st2ex.downloadTracker.contains ep1.id = false ∧
    epd1.filePath = some "p1" ∧
    lookupEntry st2ex.podcasts.data epd1.podId = some pod1 ∧
    lookupEntry pod1.episodes.data epd1.id = some ep1 ∧
    ((∀ d ∈ (download st2ex 1 (some 2) true).2.1,
        st2ex.downloadTracker.contains d.id = false) ∧
      (download st2ex 1 (some 1) true).2.1 = [epDataSingle ep1] ∧
      (download (download st2ex 1 (some 1) true).1 1 (some 1) true).2.1 = [] ∧
      (download_complete st2ex epd1 true).2 = Except.ok () ∧
      (download_complete st2ex epd1 true).1.downloadTracker.contains epd1.id = false ∧
      (download_complete st2ex epd1 false).1 = st2ex ∧
      (handle_response_error st2ex epd1).1 = st2ex ∧
      (handle_file_create_error st2ex epd1).1 = st2ex ∧
      (handle_file_write_error st2ex epd1).1 = st2ex) :=
  ⟨by decide, by decide, by decide, by decide, by decide, by decide, by decide,
   c3_inflight_set_behaviour st2ex 1 1 (some 2) true pod1 ep1 epd1 "p1" pod1 ep1
     (by decide) (by decide) (by decide) (by decide) (by decide) (by decide) (by decide)⟩

/-! ### C7: played flag vs position, and the unplayed view -/

theorem lookup_map_values {κ α β : Type} [BEq κ] (g : α → β) (l : List (κ × α)) (k : κ) :
    lookupEntry (l.map (fun p => (p.1, g p.2))) k = (lookupEntry l k).map g := by
  induction l with
  | nil => rfl
  | cons e es ih =>
      by_cases hk : (e.1 == k) = true
      · simp only [List.map_cons, lookupEntry]
        rw [List.find?_cons_of_pos _ (by simpa using hk),
          List.find?_cons_of_pos _ (by simpa using hk)]
        rfl
      · simp only [List.map_cons, lookupEntry]
        rw [List.find?_cons_of_neg _ (by simpa using hk),
          List.find?_cons_of_neg _ (by simpa using hk)]
        exact ih

theorem lookupEpisode_update_filters (st : AppState) (fl : Filters) (podId epId : Int) :
    lookupEpisode (update_filters st fl) podId epId = lookupEpisode st podId epId := by
  have key : ∀ (l : List (Int × Podcast)) (k : Int),
      lookupEntry (l.map (fun p => (p.1, { p.2 with
          episodes := p.2.episodes.replace_filtered_order (episodePassesFilters fl) }))) k =
        (lookupEntry l k).map (fun q => { q with
          episodes := q.episodes.replace_filtered_order (episodePassesFilters fl) }) := by
    intro l k
    induction l with
    | nil => rfl
    | cons e es ih =>
        by_cases hk : (e.1 == k) = true
        · simp only [List.map_cons, lookupEntry]
          rw [List.find?_cons_of_pos _ (by simpa using hk),
            List.find?_cons_of_pos _ (by simpa using hk)]
          rfl
        · simp only [List.map_cons, lookupEntry]
          rw [List.find?_cons_of_neg _ (by simpa using hk),
            List.find?_cons_of_neg _ (by simpa using hk)]
          exact ih
  simp only [lookupEpisode, update_filters, key]
  cases lookupEntry st.podcasts.data podId with
  | none => rfl
  | some pod => rfl

theorem lookup_isSome_iff_mem_keys {κ α : Type} [BEq κ] [LawfulBEq κ]
    {l : List (κ × α)} {k : κ} :
    (lookupEntry l k).isSome = true ↔ k ∈ keysOf l := by
  induction l with
  | nil => simp [lookupEntry, keysOf]
  | cons e es ih =>
      by_cases hk : (e.1 == k) = true
      · simp only [lookupEntry]
        rw [List.find?_cons_of_pos _ (by simpa using hk)]
        have : e.1 = k := by simpa using hk
        simp [keysOf, this]
      · simp only [lookupEntry]
        rw [List.find?_cons_of_neg _ (by simpa using hk)]
        have hne : ¬ e.1 = k := by simpa using hk
        simp only [keysOf, List.map_cons, List.mem_cons]
        constructor
        · intro h
          refine Or.inr (ih.mp ?_)
          simpa [lookupEntry] using h
        · rintro (h | h)
          · exact absurd h.symm hne
          · have h2 := ih.mpr h
            simpa [lookupEntry] using h2

theorem batchEpMutation_position (e : Episode) (pos tot : Int) :
    (batchEpMutation e pos tot).1.position = pos := by
  unfold batchEpMutation
  cases hd : e.duration <;> simp [hd]

theorem batchEpMutation_id (e : Episode) (pos tot : Int) :
    (batchEpMutation e pos tot).1.id = e.id := by
  unfold batchEpMutation
  cases hd : e.duration <;> simp [hd]

theorem batchEpMutation_played_of_duration {e : Episode} {d : Int} (pos tot : Int)
    (hd : e.duration = some d) :
    (batchEpMutation e pos tot).1.played = decide ((d - pos).natAbs ≤ 1) := by
  unfold batchEpMutation
  simp [hd]

/-- C7 counterexample: `update_position` never clears the played flag, so
repositioning an already-played episode (duration 100) to position 5
leaves `played = true` although the position has not reached the
duration — the claimed biconditional fails. -/
theorem c7_played_flag_not_iff_position_reached :
    (update_position st2ex 1 2 5 true).2 = Except.ok () ∧
    (lookupEpisode (update_position st2ex 1 2 5 true).1 1 2).map Episode.played =
      some true ∧
    (lookupEpisode (update_position st2ex 1 2 5 true).1 1 2).map Episode.position =
      some 5 ∧
    (lookupEpisode (update_position st2ex 1 2 5 true).1 1 2).map Episode.duration =
      some (some 100) := by
  decide

theorem update_position_ok_eq {st : AppState} {podId epId : Int} {pod : Podcast}
    {e : Episode} (pos : Int) (hpod : lookupEntry st.podcasts.data podId = some pod)
    (hep : lookupEntry pod.episodes.data epId = some e) :
    update_position st podId epId pos true =
      (if (updatePositionEp e pos).2 ||
          (fixUnplayedMembership st.unplayed epId (updatePositionEp e pos).1).2
        then update_filters (update_unplayed
          { writeEpisode st podId pod epId (updatePositionEp e pos).1 with
            unplayed :=
              (fixUnplayedMembership st.unplayed epId (updatePositionEp e pos).1).1 }
          false) st.filters
        else { writeEpisode st podId pod epId (updatePositionEp e pos).1 with
            unplayed :=
              (fixUnplayedMembership st.unplayed epId (updatePositionEp e pos).1).1 },
        Except.ok ()) := by
  simp only [update_position, hpod, hep]
  rfl

theorem update_unplayed_full_contains (st : AppState) (i : Int) :
    ((update_unplayed st true).unplayed.contains_key i = true) ↔
      ∃ pe ∈ st.podcasts.data, ∃ ee ∈ pe.2.episodes.data,
        ee.2.played = false ∧ ee.2.id = i := by
  have hif : ∀ (ee : Episode) (x : Episode),
      ((if ee.played = true then none else some ee) = some x) ↔
        (ee.played = false ∧ ee = x) := by
    intro ee x
    cases hp : ee.played <;> simp [hp]
  have hc : (update_unplayed st true).unplayed.contains_key i =
      (lookupEntry ((st.unplayed.replace_all_arc
        (get_unplayed_episodes st.podcasts)).data) i).isSome := rfl
  rw [hc, lookup_isSome_iff_mem_keys]
  simp only [LockVec.replace_all_arc]
  rw [mem_keys_foldl_insert]
  simp only [keysOf, List.map_nil, List.not_mem_nil, false_or, List.mem_map,
    get_unplayed_episodes, List.mem_flatMap, List.mem_filterMap]
  constructor
  · rintro ⟨ee, ⟨pe, hpe, ⟨eent, heent, hsome⟩⟩, hgid⟩
    have := (hif eent.2 ee).mp hsome
    refine ⟨pe, hpe, eent, heent, this.1, ?_⟩
    rw [this.2]
    simpa using hgid
  · rintro ⟨pe, hpe, eent, heent, hplayed, hgid⟩
    refine ⟨eent.2, ⟨pe, hpe, eent, heent, ?_⟩, by simpa using hgid⟩
    exact (hif eent.2 eent.2).mpr ⟨hplayed, rfl⟩

/-- C7 (amended): `update_position` only transitions an episode from
unplayed to played, and only when the new position EQUALS the known
duration — afterwards the flag equals (old flag OR position = duration),
so an already-played episode stays played at any position; the remote-sync
batch update sets the flag to `|duration - position| <= 1`; and in both
paths the unplayed view afterwards contains the episode exactly when its
flag is false (the remote-sync pass rebuilds the view from the flags via
`update_unplayed(true)`). -/
theorem c7_position_played_consistency
    (st : AppState) (podId epId pos : Int) (pod : Podcast) (e : Episode)
    (stB : AppState) (p2 eid pos2 tot2 : Int) (podB : Podcast) (eB : Episode) (d2 : Int)
    (i : Int)
    (hpod : lookupEntry st.podcasts.data podId = some pod)
    (hep : lookupEntry pod.episodes.data epId = some e)
    (hid : e.id = epId)
    (hpodB : lookupEntry stB.podcasts.data p2 = some podB)
    (hepB : lookupEntry podB.episodes.data eid = some eB)
    (hdB : eB.duration = some d2) :
    ((update_position st podId epId pos true).2 = Except.ok () ∧
      (lookupEpisode (update_position st podId epId pos true).1 podId epId).map
          Episode.played = some (e.played || (e.duration == some pos)) ∧
      (lookupEpisode (update_position st podId epId pos true).1 podId epId).map
          Episode.position = some pos ∧
      (update_position st podId epId pos true).1.unplayed.contains_key epId =
        !(e.played || (e.duration == some pos))) ∧
    ((mark_played_db_batch stB [(p2, eid, pos2, tot2)]).2 = Except.ok () ∧
      (lookupEpisode (mark_played_db_batch stB [(p2, eid, pos2, tot2)]).1 p2 eid).map
          Episode.played = some (decide ((d2 - pos2).natAbs ≤ 1)) ∧
      (lookupEpisode (mark_played_db_batch stB [(p2, eid, pos2, tot2)]).1 p2 eid).map
          Episode.position = some pos2) ∧
    (((update_unplayed stB true).unplayed.contains_key i = true) ↔
      ∃ pe ∈ stB.podcasts.data, ∃ ee ∈ pe.2.episodes.data,
        ee.2.played = false ∧ ee.2.id = i) := by
  have hupid : (updatePositionEp e pos).1.id = epId := by rw [updatePositionEp_id, hid]
  have hu := update_position_ok_eq pos hpod hep
  have hlk : lookupEpisode (update_position st podId epId pos true).1 podId epId =
      some (updatePositionEp e pos).1 := by
    rw [hu]
    split
    · rw [lookupEpisode_update_filters]
      exact lookupEpisode_writeEpisode hpod hep
    · exact lookupEpisode_writeEpisode hpod hep
  have hmem : (update_position st podId epId pos true).1.unplayed.contains_key epId =
      !(updatePositionEp e pos).1.played := by
    rw [hu]
    split
    · exact contains_key_fixUnplayed _ _ _ hupid
    · exact contains_key_fixUnplayed _ _ _ hupid
  have hok : (update_position st podId epId pos true).2 = Except.ok () := by
    rw [hu]
  have hbatch : mark_played_db_batch stB [(p2, eid, pos2, tot2)] =
      (if false || ((batchEpMutation eB pos2 tot2).2 || false)
        then update_filters (writeEpisode stB p2 podB eid (batchEpMutation eB pos2 tot2).1)
          (writeEpisode stB p2 podB eid (batchEpMutation eB pos2 tot2).1).filters
        else writeEpisode stB p2 podB eid (batchEpMutation eB pos2 tot2).1,
        Except.ok ()) := by
    simp only [mark_played_db_batch, groupByPod, processGroups, applyPodBatch, hpodB, hepB]
    rfl
  have hlkB : lookupEpisode (mark_played_db_batch stB [(p2, eid, pos2, tot2)]).1 p2 eid =
      some (batchEpMutation eB pos2 tot2).1 := by
    rw [hbatch]
    split
    · rw [lookupEpisode_update_filters]
      exact lookupEpisode_writeEpisode hpodB hepB
    · exact lookupEpisode_writeEpisode hpodB hepB
  have hokB : (mark_played_db_batch stB [(p2, eid, pos2, tot2)]).2 = Except.ok () := by
    rw [hbatch]
  refine ⟨⟨hok, ?_, ?_, ?_⟩, ⟨hokB, ?_, ?_⟩, update_unplayed_full_contains stB i⟩
  · rw [hlk, Option.map_some', updatePositionEp_played]
  · rw [hlk, Option.map_some', updatePositionEp_position]
  · rw [hmem, updatePositionEp_played]
  · rw [hlkB, Option.map_some', batchEpMutation_played_of_duration pos2 tot2 hdB]
  · rw [hlkB, Option.map_some', batchEpMutation_position]

/-- Witness for `c7_position_played_consistency` at the concrete fixture
(episode 1, duration 100). -/
theorem c7_position_played_consistency_witness :
    lookupEntry st2ex.podcasts.data 1 = some pod1 ∧
    lookupEntry pod1.episodes.data 1 = some ep1 ∧
    ep1.id = 1 ∧
    ep1.duration = some 100 ∧
    (((update_position st2ex 1 1 100 true).2 = Except.ok () ∧
      (lookupEpisode (update_position st2ex 1 1 100 true).1 1 1).map
          Episode.played = some (ep1.played || (ep1.duration == some 100)) ∧
      (lookupEpisode (update_position st2ex 1 1 100 true).1 1 1).map
          Episode.position = some 100 ∧
      (update_position st2ex 1 1 100 true).1.unplayed.contains_key 1 =
        !(ep1.played || (ep1.duration == some 100))) ∧
    ((mark_played_db_batch st2ex [(1, 1, 99, 100)]).2 = Except.ok () ∧
      (lookupEpisode (mark_played_db_batch st2ex [(1, 1, 99, 100)]).1 1 1).map
          Episode.played = some (decide (((100 : Int) - 99).natAbs ≤ 1)) ∧
      (lookupEpisode (mark_played_db_batch st2ex [(1, 1, 99, 100)]).1 1 1).map
          Episode.position = some 99) ∧
    (((update_unplayed st2ex true).unplayed.contains_key 2 = true) ↔
      ∃ pe ∈ st2ex.podcasts.data, ∃ ee ∈ pe.2.episodes.data,
        ee.2.played = false ∧ ee.2.id = 2)) :=
  ⟨by decide, by decide, by decide, by decide,
   c7_position_played_consistency st2ex 1 1 100 pod1 ep1 st2ex 1 1 99 100 pod1 ep1 100 2
     (by decide) (by decide) (by decide) (by decide) (by decide) (by decide)⟩

/-! ### Remote sync client (src/gpodder/mod.rs, src/gpodder/types.rs) -/

/-- Episode-action kind (src/gpodder/types.rs `Action`). -/
inductive Action where
  | New
  | Download
  | Play
  | Delete
deriving DecidableEq, Repr

/-- Remote episode action (src/gpodder/types.rs `EpisodeAction`). -/
structure EpisodeAction where
  podcast : String
  episode : String
  action : Action
  timestamp : Int
  started : Option Int
  position : Option Int
  total : Option Int
deriving DecidableEq, Repr

/-- Parsed subscription delta (src/gpodder/types.rs `PodcastChanges`). -/
structure PodcastChanges where
  add : List String
  remove : List String
  timestamp : Int
deriving DecidableEq, Repr

/-- The client's cursor state (src/gpodder/types.rs `State` as used by
mod.rs): the two progress cursors and the one-shot login gate. -/
structure GpState where
  subscriptionsTimestamp : Int
  actionsTimestamp : Int
  loggedIn : Bool
deriving DecidableEq, Repr

/-- Remote responses for the subscription endpoints: the full list (the
`/subscriptions/user.json` endpoint used when the cursor is 0) and the
delta endpoint as a function of the requested `since` value.  Transport
failures and JSON-parse failures are collapsed into the error case. -/
structure SubsServer where
  full : Except Unit (List String)
  delta : Int → Except Unit PodcastChanges

/-- `GpodderController::get_subscription_changes`
(src/gpodder/mod.rs:209-242): with cursor 0, fetch the full subscription
list (cursor untouched); otherwise request the delta since the cursor and
on success advance it to the returned timestamp + 1; every error path
leaves the state unchanged. -/
def get_subscription_changes (srv : SubsServer) (s : GpState) :
    GpState × Except Unit (List String × List String) :=
  if s.subscriptionsTimestamp == 0 then
    match srv.full with
    | Except.ok added => (s, Except.ok (added, []))
    | Except.error _ => (s, Except.error ())
  else
    match srv.delta s.subscriptionsTimestamp with
    | Except.ok changes =>
        ({ s with subscriptionsTimestamp := changes.timestamp + 1 },
          Except.ok (changes.add, changes.remove))
    | Except.error _ => (s, Except.error ())

/-- Remote responses for the episode-actions flow: the login and
device-init outcomes and the actions endpoint as a function of the
requested `since` value (returning the actions and the server
timestamp). -/
structure ActionsServer where
  loginOk : Bool
  initOk : Bool
  actions : Int → Except Unit (List EpisodeAction × Int)

/-- `GpodderController::require_login` (src/gpodder/mod.rs:168-175): on
the first call, log in (failure aborts with the gate still closed), set
the gate, then run device init (failure aborts with the gate now open). -/
def require_login (srv : ActionsServer) (s : GpState) : GpState × Except Unit Unit :=
  if s.loggedIn then (s, Except.ok ())
  else if !srv.loginOk then (s, Except.error ())
  else
    let s1 := { s with loggedIn := true }
    if !srv.initOk then (s1, Except.error ()) else (s1, Except.ok ())

/-- `GpodderController::get_episode_action_changes`
(src/gpodder/mod.rs:140-166): after `require_login`, request the actions
since the actions cursor; on success advance the cursor to the returned
timestamp + 1; every error path leaves both cursors unchanged. -/
def get_episode_action_changes (srv : ActionsServer) (s : GpState) :
    GpState × Except Unit (List EpisodeAction) :=
  let r := require_login srv s
  match r.2 with
  | Except.error _ => (r.1, Except.error ())
  | Except.ok _ =>
    match srv.actions r.1.actionsTimestamp with
    | Except.ok acts =>
        ({ r.1 with actionsTimestamp := acts.2 + 1 }, Except.ok acts.1)
    | Except.error _ => (r.1, Except.error ())

/-- `GpodderController::get_timestamp` (src/gpodder/mod.rs:43-48). -/
def get_timestamp (s : GpState) : Int :=
  min s.actionsTimestamp s.subscriptionsTimestamp

theorem require_login_cursors (srv : ActionsServer) (s : GpState) :
    (require_login srv s).1.subscriptionsTimestamp = s.subscriptionsTimestamp ∧
    (require_login srv s).1.actionsTimestamp = s.actionsTimestamp := by
  unfold require_login
  by_cases hl : s.loggedIn = true
  · simp [hl]
  · cases hlo : srv.loginOk <;> cases hin : srv.initOk <;>
      simp [hl, hlo, hin]

/-- C6: subscription/action cursor behaviour.  "Later" calls are the
calls made with a nonzero subscriptions cursor (the source's cursor==0
branch fetches the full list and leaves the cursor at 0). -/
theorem c6_cursor_behaviour (srv : SubsServer) (asrv : ActionsServer)
    (s s' s2 s3 : GpState) (lst : List String) (ch : PodcastChanges)
    (acts : List EpisodeAction) (ts : Int)
    (h0 : s.subscriptionsTimestamp = 0)
    (hfull : srv.full = Except.ok lst)
    (hne : s'.subscriptionsTimestamp ≠ 0)
    (hdelta : srv.delta s'.subscriptionsTimestamp = Except.ok ch)
    (hlogin : (require_login asrv s2).2 = Except.ok ())
    (hact : asrv.actions s2.actionsTimestamp = Except.ok (acts, ts)) :
    get_subscription_changes srv s = (s, Except.ok (lst, [])) ∧
    get_subscription_changes srv s' =
      ({ s' with subscriptionsTimestamp := ch.timestamp + 1 },
        Except.ok (ch.add, ch.remove)) ∧
    ((get_episode_action_changes asrv s2).2 = Except.ok acts ∧
      (get_episode_action_changes asrv s2).1.actionsTimestamp = ts + 1 ∧
      (get_episode_action_changes asrv s2).1.subscriptionsTimestamp =
        s2.subscriptionsTimestamp) ∧
    (∀ e, (get_subscription_changes srv s3).2 = Except.error e →
      (get_subscription_changes srv s3).1 = s3) ∧
    (∀ e, (get_episode_action_changes asrv s3).2 = Except.error e →
      ((get_episode_action_changes asrv s3).1.subscriptionsTimestamp =
          s3.subscriptionsTimestamp ∧
        (get_episode_action_changes asrv s3).1.actionsTimestamp =
          s3.actionsTimestamp)) := by
  have hcur := require_login_cursors asrv s2
  have hacts2 : asrv.actions (require_login asrv s2).1.actionsTimestamp =
      Except.ok (acts, ts) := by rw [hcur.2, hact]
  refine ⟨?_, ?_, ?_, ?_, ?_⟩
  · unfold get_subscription_changes
    simp [h0, hfull]
  · unfold get_subscription_changes
    simp [hne, hdelta]
  · unfold get_episode_action_changes
    simp [hlogin, hacts2, hcur.1]
  · intro e herr
    unfold get_subscription_changes at herr ⊢
    by_cases h3 : s3.subscriptionsTimestamp = 0
    · cases hf : srv.full with
      | ok l => simp [h3, hf] at herr
      | error u => simp [h3, hf]
    · cases hd : srv.delta s3.subscriptionsTimestamp with
      | ok c => simp [h3, hd] at herr
      | error u => simp [h3, hd]
  · intro e herr
    have hc3 := require_login_cursors asrv s3
    unfold get_episode_action_changes at herr ⊢
    cases hr : (require_login asrv s3).2 with
    | error u => simp only [hr]; exact ⟨hc3.1, hc3.2⟩
    | ok u =>
        cases ha : asrv.actions (require_login asrv s3).1.actionsTimestamp with
        | ok p => simp [hr, ha] at herr
        | error u2 => simp only [hr, ha]; exact ⟨hc3.1, hc3.2⟩

/-- Cursor-state fixture before any sync. -/
def gp0 : GpState := { subscriptionsTimestamp := 0, actionsTimestamp := 0, loggedIn := false }

/-- Cursor-state fixture mid-stream (both cursors at 7, logged in). -/
def gp7 : GpState := { subscriptionsTimestamp := 7, actionsTimestamp := 7, loggedIn := true }

/-- Subscription-delta fixture. -/
def pch6 : PodcastChanges := { add := ["B"], remove := ["C"], timestamp := 30 }

/-- Subscription-server fixture. -/
def srv6 : SubsServer := { full := Except.ok ["A"], delta := fun _ => Except.ok pch6 }

/-- Actions-server fixture. -/
def asrv6 : ActionsServer :=
  { loginOk := true, initOk := true, actions := fun _ => Except.ok ([], 41) }

/-- Witness for `c6_cursor_behaviour` with concrete servers and states. -/
theorem c6_cursor_behaviour_witness :
    gp0.subscriptionsTimestamp = 0 ∧
    srv6.full = Except.ok ["A"] ∧
    gp7.subscriptionsTimestamp ≠ 0 ∧
    srv6.delta gp7.subscriptionsTimestamp = Except.ok pch6 ∧
    (require_login asrv6 gp7).2 = Except.ok () ∧
    asrv6.actions gp7.actionsTimestamp = Except.ok ([], 41) ∧
    (get_subscription_changes srv6 gp0 = (gp0, Except.ok (["A"], [])) ∧
      get_subscription_changes srv6 gp7 =
        ({ gp7 with subscriptionsTimestamp := pch6.timestamp + 1 },
          Except.ok (pch6.add, pch6.remove)) ∧
      ((get_episode_action_changes asrv6 gp7).2 = Except.ok [] ∧
        (get_episode_action_changes asrv6 gp7).1.actionsTimestamp = 41 + 1 ∧
        (get_episode_action_changes asrv6 gp7).1.subscriptionsTimestamp =
          gp7.subscriptionsTimestamp) ∧
      (∀ e, (get_subscription_changes srv6 gp7).2 = Except.error e →
        (get_subscription_changes srv6 gp7).1 = gp7) ∧
      (∀ e, (get_episode_action_changes asrv6 gp7).2 = Except.error e →
        ((get_episode_action_changes asrv6 gp7).1.subscriptionsTimestamp =
            gp7.subscriptionsTimestamp ∧
          (get_episode_action_changes asrv6 gp7).1.actionsTimestamp =
            gp7.actionsTimestamp))) :=
  ⟨rfl, rfl, by decide, rfl, rfl, rfl,
   c6_cursor_behaviour srv6 asrv6 gp0 gp7 gp7 gp7 ["A"] pch6 [] 41
     rfl rfl (by decide) rfl rfl rfl⟩

/-! ### C4: the merge pass's position-update deduplication
(src/app.rs `App::gpodder_sync_pos`, lines 441-470) -/

/-- Lookup in a `collect::<HashMap<_,_>>()`ed association list: the later
binding for a key wins, as it does when collecting into a `HashMap`. -/
def lookupLast {β : Type} (l : List (String × β)) (k : String) : Option β :=
  (l.reverse.find? (fun e => e.1 == k)).map (fun e => e.2)

/-- The `pod_data` map of `gpodder_sync_pos` (src/app.rs:422-439):
podcast url → (podcast id, episode url → episode id), built over the full
orders.  A missing id would panic in the source (`map` / `expect`) and is
skipped here; the Catalog invariant rules the case out. -/
def podDataOf (podcasts : LockVec Podcast) : List (String × (Int × List (String × Int))) :=
  podcasts.order.filterMap (fun pid =>
    (lookupEntry podcasts.data pid).map (fun pod =>
      (pod.url, (pod.id, pod.episodes.order.filterMap (fun eid =>
        (lookupEntry pod.episodes.data eid).map (fun e => (e.url, e.id)))))))

/-- The `last_actions.insert` candidate for one action (the Play branch
of the loop, src/app.rs:443-464): the (podcast id, episode id) key and
(position, total) value, provided the urls map to local ids and position
and total are present. -/
def actionEntry (podData : List (String × (Int × List (String × Int))))
    (a : EpisodeAction) : Option ((Int × Int) × (Int × Int)) :=
  match a.action with
  | Action.Play =>
    match lookupLast podData a.podcast with
    | none => none
    | some pd =>
      match lookupLast pd.2 a.episode, a.position, a.total with
      | some epId, some pos, some tot => some ((pd.1, epId), (pos, tot))
      | _, _, _ => none
  | _ => none

/-- One step of the `last_actions` loop. -/
def lastActionsStep (podData : List (String × (Int × List (String × Int))))
    (acc : List ((Int × Int) × (Int × Int))) (a : EpisodeAction) :
    List ((Int × Int) × (Int × Int)) :=
  match actionEntry podData a with
  | some kv => insertEntry kv.1 kv.2 acc
  | none => acc

/-- The `last_actions` map after the whole loop. -/
def lastActionsFold (podData : List (String × (Int × List (String × Int))))
    (actions : List EpisodeAction) : List ((Int × Int) × (Int × Int)) :=
  actions.foldl (lastActionsStep podData) []

/-- The `updates` batch passed to `mark_played_db_batch`
(src/app.rs:465-469). -/
def updatesOf (podData : List (String × (Int × List (String × Int))))
    (actions : List EpisodeAction) : List (Int × Int × Int × Int) :=
  (lastActionsFold podData actions).map (fun kv => (kv.1.1, kv.1.2, kv.2.1, kv.2.2))

/-- Specification-side mapping of an action to its local key, following
the spec's words: a play action maps through the podcast-url and
episode-url tables; anything else maps to nothing. -/
def playKeyOf (podData : List (String × (Int × List (String × Int))))
    (a : EpisodeAction) : Option (Int × Int) :=
  match a.action with
  | Action.Play =>
    (lookupLast podData a.podcast).bind (fun pd =>
      (lookupLast pd.2 a.episode).map (fun eid => (pd.1, eid)))
  | _ => none

/-- Specification-side test: is `a` a play action contributing an update
for `key` (mappable urls, position and total present)? -/
def isPlayUpdateFor (podData : List (String × (Int × List (String × Int))))
    (key : Int × Int) (a : EpisodeAction) : Bool :=
  (playKeyOf podData a == some key) && a.position.isSome && a.total.isSome

/-- The (position, total) payload of an action. -/
def playValue (a : EpisodeAction) : Option (Int × Int) :=
  match a.position, a.total with
  | some p, some t => some (p, t)
  | _, _ => none

/-- Specification-side merge result, written from the spec's words: the
update applied for a key carries the (position, total) of the LAST action
in the received list that is a play action mapping to that key with
position and total present (last-write-wins); keys with no such action
receive no update. -/
def specLastPlay (podData : List (String × (Int × List (String × Int))))
    (actions : List EpisodeAction) (key : Int × Int) : Option (Int × Int) :=
  (actions.reverse.find? (isPlayUpdateFor podData key)).bind playValue

/-- Key uniqueness of an association list. -/
def NoDupKeys {κ α : Type} (l : List (κ × α)) : Prop :=
  l.Pairwise (fun x y => x.1 ≠ y.1)

theorem NoDupKeys_insertEntry {κ α : Type} [BEq κ] [LawfulBEq κ] {l : List (κ × α)}
    (k : κ) (v : α) (h : NoDupKeys l) : NoDupKeys (insertEntry k v l) := by
  unfold insertEntry NoDupKeys
  rw [List.pairwise_cons]
  constructor
  · intro b hb
    rw [List.mem_filter] at hb
    have : ¬ b.1 = k := by simpa using hb.2
    exact fun hh => this (hh.symm)
  · exact h.filter _

theorem actionEntry_some_spec {podData : List (String × (Int × List (String × Int)))}
    {a : EpisodeAction} {kv : (Int × Int) × (Int × Int)}
    (h : actionEntry podData a = some kv) :
    playKeyOf podData a = some kv.1 ∧ a.position = some kv.2.1 ∧
      a.total = some kv.2.2 := by
  unfold actionEntry at h
  unfold playKeyOf
  cases ha : a.action <;> rw [ha] at h <;> try simp at h
  case Play =>
    cases hp : lookupLast podData a.podcast <;> rw [hp] at h
    · simp at h
    case some pdv =>
      cases he : lookupLast pdv.2 a.episode <;>
        cases hpos : a.position <;> cases htot : a.total <;>
        simp [he, hpos, htot] at h ⊢
      subst h
      exact ⟨rfl, rfl, rfl⟩

theorem actionEntry_none_not_matched
    {podData : List (String × (Int × List (String × Int)))} {a : EpisodeAction}
    (key : Int × Int) (h : actionEntry podData a = none) :
    isPlayUpdateFor podData key a = false := by
  unfold actionEntry at h
  unfold isPlayUpdateFor playKeyOf
  cases ha : a.action <;> rw [ha] at h <;> try simp
  case Play =>
    cases hp : lookupLast podData a.podcast <;> rw [hp] at h
    · simp
    case some pdv =>
      cases he : lookupLast pdv.2 a.episode <;>
        cases hpos : a.position <;> cases htot : a.total <;>
        simp [he, hpos, htot] at h ⊢

theorem matched_actionEntry {podData : List (String × (Int × List (String × Int)))}
    {key : Int × Int} {a : EpisodeAction}
    (h : isPlayUpdateFor podData key a = true) :
    ∃ v, actionEntry podData a = some (key, v) ∧ playValue a = some v := by
  unfold isPlayUpdateFor at h
  rw [Bool.and_eq_true, Bool.and_eq_true] at h
  obtain ⟨⟨h1, h2⟩, h3⟩ := h
  rw [beq_iff_eq] at h1
  cases hpos : a.position with
  | none => rw [hpos] at h2; simp at h2
  | some p =>
    cases htot : a.total with
    | none => rw [htot] at h3; simp at h3
    | some t =>
      unfold playKeyOf at h1
      unfold actionEntry playValue
      cases ha : a.action <;> rw [ha] at h1 <;> try simp at h1
      case Play =>
        cases hp : lookupLast podData a.podcast <;> rw [hp] at h1
        · simp at h1
        case some pdv =>
          cases he : lookupLast pdv.2 a.episode <;> simp [he] at h1
          case some eid =>
            refine ⟨(p, t), ?_, ?_⟩
            · simp [hp, he, hpos, htot, h1]
            · simp [hpos, htot]

theorem lookup_lastActions_aux (podData : List (String × (Int × List (String × Int))))
    (key : Int × Int) :
    ∀ (acts : List EpisodeAction) (acc : List ((Int × Int) × (Int × Int))),
      lookupEntry (acts.foldl (lastActionsStep podData) acc) key =
        ((acts.reverse.find? (isPlayUpdateFor podData key)).bind playValue).or
          (lookupEntry acc key) := by
  intro acts
  induction acts with
  | nil =>
      intro acc
      simp [Option.none_or]
  | cons a rest ih =>
      intro acc
      simp only [List.foldl_cons, List.reverse_cons, List.find?_append]
      rw [ih]
      cases hf : rest.reverse.find? (isPlayUpdateFor podData key) with
      | some b =>
          have hPb : isPlayUpdateFor podData key b = true := List.find?_some hf
          obtain ⟨vb, _, hvb⟩ := matched_actionEntry hPb
          simp [hvb, Option.or]
      | none =>
          simp only [Option.none_or]
          cases hae : actionEntry podData a with
          | none =>
              have hPa := actionEntry_none_not_matched key hae
              simp [lastActionsStep, hae, List.find?, hPa, Option.none_or]
          | some kv =>
              obtain ⟨hk, hpos, htot⟩ := actionEntry_some_spec hae
              by_cases hkey : kv.1 = key
              · have hPa : isPlayUpdateFor podData key a = true := by
                  unfold isPlayUpdateFor
                  rw [hk, hkey, hpos, htot]
                  simp
                have hVa : playValue a = some kv.2 := by
                  unfold playValue
                  rw [hpos, htot]
                have hacc : lookupEntry (lastActionsStep podData acc a) key =
                    some kv.2 := by
                  simp only [lastActionsStep, hae]
                  rw [← hkey]
                  exact lookup_insertEntry_self kv.1 kv.2 acc
                simp [hacc, List.find?, hPa, hVa, Option.or]
              · have hPa : isPlayUpdateFor podData key a = false := by
                  unfold isPlayUpdateFor
                  rw [hk]
                  simp [hkey]
                have hacc : lookupEntry (lastActionsStep podData acc a) key =
                    lookupEntry acc key := by
                  simp only [lastActionsStep, hae]
                  exact lookup_insertEntry_ne kv.2 acc (fun hh => hkey hh.symm)
                simp [hacc, List.find?, hPa, Option.none_or]

theorem NoDupKeys_lastActionsFold (podData : List (String × (Int × List (String × Int))))
    (acts : List EpisodeAction) : NoDupKeys (lastActionsFold podData acts) := by
  unfold lastActionsFold
  have h : ∀ (l : List EpisodeAction) (acc : List ((Int × Int) × (Int × Int))),
      NoDupKeys acc → NoDupKeys (l.foldl (lastActionsStep podData) acc) := by
    intro l
    induction l with
    | nil => intro acc hacc; exact hacc
    | cons a rest ih =>
        intro acc hacc
        simp only [List.foldl_cons]
        apply ih
        unfold lastActionsStep
        cases hae : actionEntry podData a with
        | none => exact hacc
        | some kv => exact NoDupKeys_insertEntry kv.1 kv.2 hacc
  exact h acts [] (by simp [NoDupKeys])

/-- Episode fixture with url "E" for the merge example. -/
def epE : Episode :=
  { id := 1, podId := 1, url := "E", pubdate := some 0, duration := some 200,
    position := 0, path := none, played := false }

/-- Podcast fixture with url "A" for the merge example. -/
def podA : Podcast := { id := 1, url := "A", episodes := LockVec.new [epE] }

/-- Podcast catalog fixture for the merge example. -/
def podsC4 : LockVec Podcast := LockVec.new [podA]

/-- A remote play action on (A, E) with the given position and time. -/
def playActionAt (pos ts : Int) : EpisodeAction :=
  { podcast := "A", episode := "E", action := Action.Play, timestamp := ts,
    started := some 0, position := some pos, total := some 100 }

/-- C4: the position-update batch of one merge pass holds at most one
update per (podcast id, episode id) key; each key's applied (position,
total) is that of the last mappable-and-complete play action for the key
in the received list; and on the spec's example the merged result is
position 50. -/
theorem c4_merge_dedup_last_write_wins
    (podData : List (String × (Int × List (String × Int))))
    (acts : List EpisodeAction) (key : Int × Int) :
    NoDupKeys (lastActionsFold podData acts) ∧
    (updatesOf podData acts).Pairwise
      (fun u1 u2 => ¬(u1.1 = u2.1 ∧ u1.2.1 = u2.2.1)) ∧
    lookupEntry (lastActionsFold podData acts) key = specLastPlay podData acts key ∧
    updatesOf (podDataOf podsC4) [playActionAt 10 1, playActionAt 50 2] =
      [(1, 1, 50, 100)] := by
  refine ⟨NoDupKeys_lastActionsFold podData acts, ?_, ?_, by decide⟩
  · unfold updatesOf
    refine List.Pairwise.map _ ?_ (NoDupKeys_lastActionsFold podData acts)
    intro x y hxy hcomp
    exact hxy (Prod.ext hcomp.1 hcomp.2)
  · unfold lastActionsFold specLastPlay
    rw [lookup_lastActions_aux]
    simp [lookupEntry, Option.or_none]

/-! ### C5: the "last sync" timestamp stored after a merge pass -/

/-- `App::gpodder_sync_pos` (src/app.rs:387-485), modelled for an empty
subscription-changes list (the add/remove loops are then vacuous; podcast
addition/removal goes through network and database refetch outside these
claims).  The play actions are deduplicated into one batch, the batch is
applied (`?` on failure), the received timestamp is stored under the
`"timestamp"` param (`set_param`, whose own failure is ignored by the
source), and the unplayed view and filters are refreshed. -/
def gpodder_sync_pos (st : AppState) (episodeActions : List EpisodeAction)
    (timestamp : Int) : AppState × Except String Unit :=
  let podData := podDataOf st.podcasts
  let updates := updatesOf podData episodeActions
  let r := mark_played_db_batch st updates
  match r.2 with
  | Except.error e => (r.1, Except.error e)
  | Except.ok _ =>
    let st2 := { r.1 with
      params := insertEntry "timestamp" (toString timestamp) r.1.params }
    let st3 := update_filters (update_unplayed st2 true) st2.filters
    (st3, Except.ok ())

/-- `db.get_param` read-back of a stored parameter. -/
def getParam (st : AppState) (k : String) : Option String :=
  lookupEntry st.params k

/-- Modelled from the spec: the gpodder worker loop that serves
`GpodderRequest::GetSubscriptionChanges` is not under src/ (src/ has its
request and message types and the controller's handler, but not the loop
itself).  Per the spec, one merge pass calls `get_subscription_changes()`
and `get_episode_action_changes()` and then sends
`GpodderMsg::SubscriptionChanges(changes, actions, timestamp)` where the
timestamp is `get_timestamp()` — the minimum of the two cursors held by
the client at that point; a failed call sends nothing, aborting the
pass. -/
def gpodder_worker_sync (subsSrv : SubsServer) (actsSrv : ActionsServer) (s : GpState) :
    GpState × Option ((List String × List String) × List EpisodeAction × Int) :=
  match get_subscription_changes subsSrv s with
  | (s1, Except.error _) => (s1, none)
  | (s1, Except.ok changes) =>
    match get_episode_action_changes actsSrv s1 with
    | (s2, Except.error _) => (s2, none)
    | (s2, Except.ok acts) => (s2, some (changes, acts, get_timestamp s2))

/-- C5: after a merge pass completes, the stored "timestamp" param equals
the minimum of the subscriptions cursor and the actions cursor held by
the sync client when the message was produced. -/
theorem c5_stored_timestamp_is_min_cursor
    (subsSrv : SubsServer) (actsSrv : ActionsServer) (s s' : GpState) (st : AppState)
    (chs : List String × List String) (acts : List EpisodeAction) (ts : Int)
    (hw : gpodder_worker_sync subsSrv actsSrv s = (s', some (chs, acts, ts)))
    (hb : (mark_played_db_batch st (updatesOf (podDataOf st.podcasts) acts)).2 =
      Except.ok ()) :
    ts = min s'.actionsTimestamp s'.subscriptionsTimestamp ∧
    getParam (gpodder_sync_pos st acts ts).1 "timestamp" =
      some (toString (min s'.actionsTimestamp s'.subscriptionsTimestamp)) := by
  have hts : ts = min s'.actionsTimestamp s'.subscriptionsTimestamp := by
    unfold gpodder_worker_sync at hw
    cases hgs : get_subscription_changes subsSrv s with
    | mk s1 v1 =>
        rw [hgs] at hw
        cases v1 with
        | error u => simp at hw
        | ok changes =>
            simp only at hw
            cases hga : get_episode_action_changes actsSrv s1 with
            | mk s2 v2 =>
                rw [hga] at hw
                cases v2 with
                | error u => simp at hw
                | ok acts2 =>
                    simp only [Prod.mk.injEq, Option.some_inj] at hw
                    obtain ⟨hst, _, _, hts⟩ := hw
                    rw [← hts, ← hst]
                    rfl
  refine ⟨hts, ?_⟩
  have hp : getParam (gpodder_sync_pos st acts ts).1 "timestamp" =
      some (toString ts) := by
    unfold gpodder_sync_pos
    simp only [hb]
    unfold getParam
    exact lookup_insertEntry_self "timestamp" (toString ts) _
  rw [hp, hts]

/-- The client state after the witness merge pass: subscriptions cursor
30+1, actions cursor 41+1. -/
def gpWitFinal : GpState :=
  { subscriptionsTimestamp := 31, actionsTimestamp := 42, loggedIn := true }

/-- Witness for `c5_stored_timestamp_is_min_cursor` with concrete servers
and states. -/
theorem c5_stored_timestamp_is_min_cursor_witness :
    gpodder_worker_sync srv6 asrv6 gp7 = (gpWitFinal, some ((["B"], ["C"]), [], 31)) ∧
    (mark_played_db_batch st2ex (updatesOf (podDataOf st2ex.podcasts) [])).2 =
      Except.ok () ∧
    ((31 : Int) = min gpWitFinal.actionsTimestamp gpWitFinal.subscriptionsTimestamp ∧
      getParam (gpodder_sync_pos st2ex [] 31).1 "timestamp" =
        some (toString (min gpWitFinal.actionsTimestamp
          gpWitFinal.subscriptionsTimestamp))) :=
  ⟨rfl, rfl,
   c5_stored_timestamp_is_min_cursor srv6 asrv6 gp7 gpWitFinal st2ex
     (["B"], ["C"]) [] 31 rfl rfl⟩

/-! ### C8: duration parsing (src/feeds.rs `duration_to_int`, lines 202-251)

The regex `(\d+)(?::(\d+))?(?::(\d+))?` is matched leftmost-greedy:
scan to the first digit, take the maximal digit run as group 1, then up
to two optional `:`-plus-digit-run groups (the second optional group can
only match if the first did, since both try the same pattern at the same
position).  Each captured group is parsed as an `i32` (all-digit text
fails to parse exactly when its value exceeds 2^31 - 1); `i32` arithmetic
is modelled with release-mode wrap-around (`wrap32`). -/

/-- Maximal leading digit run of a character list, with the rest. -/
def takeDigits : List Char → List Char × List Char
  | [] => ([], [])
  | c :: cs =>
    if c.isDigit then
      let r := takeDigits cs
      (c :: r.1, r.2)
    else ([], c :: cs)

/-- One optional `(?::(\d+))?` group at the current position. -/
def optColonGroup : List Char → Option (List Char) × List Char
  | ':' :: c :: cs =>
    if c.isDigit then
      let r := takeDigits cs
      (some (c :: r.1), r.2)
    else (none, ':' :: c :: cs)
  | l => (none, l)

/-- Leftmost match of the duration regex: the three capture groups
(groups 2 and 3 optional). -/
def findFirstMatch : List Char →
    Option (List Char × Option (List Char) × Option (List Char))
  | [] => none
  | c :: cs =>
    if c.isDigit then
      let r1 := takeDigits cs
      let g2 := optColonGroup r1.2
      let g3 := optColonGroup g2.2
      some (c :: r1.1, g2.1, g3.1)
    else findFirstMatch cs

/-- Numeric value of a digit run. -/
def digitsToNat (ds : List Char) : Nat :=
  ds.foldl (fun acc c => acc * 10 + (c.toNat - '0'.toNat)) 0

/-- `str::parse::<i32>` on an all-digit string: fails exactly when the
value exceeds `i32::MAX`. -/
def parseI32 (ds : List Char) : Option Int :=
  if digitsToNat ds ≤ 2147483647 then some ((digitsToNat ds : Nat) : Int) else none

/-- Release-mode `i32` wrap-around. -/
def wrap32 (n : Int) : Int :=
  (n + 2147483648) % 4294967296 - 2147483648

/-- `duration_to_int` (src/feeds.rs:202-251): match the regex, parse
every captured group (any failure yields `None`), and combine the groups
as HH:MM:SS, MM:SS or SS. -/
def duration_to_int (duration : Option String) : Option Int :=
  match duration with
  | none => none
  | some s =>
    match findFirstMatch s.data with
    | none => none
    | some m =>
      match parseI32 m.1 with
      | none => none
      | some v1 =>
        match m.2.1 with
        | none => some v1
        | some g2 =>
          match parseI32 g2 with
          | none => none
          | some v2 =>
            match m.2.2 with
            | none => some (wrap32 (wrap32 (v1 * 60) + v2))
            | some g3 =>
              match parseI32 g3 with
              | none => none
              | some v3 =>
                some (wrap32 (wrap32 (wrap32 (wrap32 (v1 * 60) * 60) +
                  wrap32 (v2 * 60)) + v3))

/-- Head of the remainder is not a digit (or the remainder is empty). -/
def headNotDigit : List Char → Prop
  | [] => True
  | c :: _ => c.isDigit = false

theorem takeDigits_split {ds rest : List Char} (hds : ∀ c ∈ ds, c.isDigit = true)
    (hrest : headNotDigit rest) : takeDigits (ds ++ rest) = (ds, rest) := by
  induction ds with
  | nil =>
      cases rest with
      | nil => rfl
      | cons c cs =>
          simp only [List.nil_append, takeDigits]
          rw [if_neg]
          simp only [headNotDigit] at hrest
          simp [hrest]
  | cons d ds ih =>
      have hd : d.isDigit = true := hds d (by simp)
      have hds' : ∀ c ∈ ds, c.isDigit = true := fun c hc => hds c (by simp [hc])
      simp only [List.cons_append, takeDigits, hd, if_true]
      rw [show ds.append rest = ds ++ rest from rfl, ih hds']

theorem findFirstMatch_no_digit {l : List Char} (h : ∀ c ∈ l, c.isDigit = false) :
    findFirstMatch l = none := by
  induction l with
  | nil => rfl
  | cons c cs ih =>
      have hc : c.isDigit = false := h c (by simp)
      simp only [findFirstMatch, hc, Bool.false_eq_true, if_false]
      exact ih (fun x hx => h x (by simp [hx]))

theorem takeDigits_all (ds : List Char) (h : ∀ c ∈ ds, c.isDigit = true) :
    takeDigits ds = (ds, []) := by
  have h2 := @takeDigits_split ds [] h trivial
  simpa using h2

theorem colon_not_digit : (':').isDigit = false := rfl

theorem optColonGroup_digits (d : Char) (t rest : List Char) (hd : d.isDigit = true)
    (ht : ∀ c ∈ t, c.isDigit = true) (hrest : headNotDigit rest) :
    optColonGroup (':' :: d :: (t ++ rest)) = (some (d :: t), rest) := by
  simp only [optColonGroup, hd, if_true, takeDigits_split ht hrest]

theorem optColonGroup_digits_nil (d : Char) (t : List Char) (hd : d.isDigit = true)
    (ht : ∀ c ∈ t, c.isDigit = true) :
    optColonGroup (':' :: d :: t) = (some (d :: t), []) := by
  simp only [optColonGroup, hd, if_true, takeDigits_all t ht]

theorem findFirstMatch_one (d1 : Char) (t1 : List Char) (hd1 : d1.isDigit = true)
    (ht1 : ∀ c ∈ t1, c.isDigit = true) :
    findFirstMatch (d1 :: t1) = some (d1 :: t1, none, none) := by
  simp only [findFirstMatch, hd1, if_true, takeDigits_all t1 ht1]
  rfl

theorem findFirstMatch_two (d1 d2 : Char) (t1 t2 : List Char)
    (hd1 : d1.isDigit = true) (ht1 : ∀ c ∈ t1, c.isDigit = true)
    (hd2 : d2.isDigit = true) (ht2 : ∀ c ∈ t2, c.isDigit = true) :
    findFirstMatch (d1 :: (t1 ++ ':' :: d2 :: t2)) =
      some (d1 :: t1, some (d2 :: t2), none) := by
  simp only [findFirstMatch, hd1, if_true,
    takeDigits_split ht1 (by exact colon_not_digit : headNotDigit (':' :: d2 :: t2)),
    optColonGroup_digits_nil d2 t2 hd2 ht2]
  rfl

theorem findFirstMatch_three (d1 d2 d3 : Char) (t1 t2 t3 : List Char)
    (hd1 : d1.isDigit = true) (ht1 : ∀ c ∈ t1, c.isDigit = true)
    (hd2 : d2.isDigit = true) (ht2 : ∀ c ∈ t2, c.isDigit = true)
    (hd3 : d3.isDigit = true) (ht3 : ∀ c ∈ t3, c.isDigit = true) :
    findFirstMatch (d1 :: (t1 ++ ':' :: d2 :: (t2 ++ ':' :: d3 :: t3))) =
      some (d1 :: t1, some (d2 :: t2), some (d3 :: t3)) := by
  simp only [findFirstMatch, hd1, if_true,
    takeDigits_split ht1
      (by exact colon_not_digit : headNotDigit (':' :: d2 :: (t2 ++ ':' :: d3 :: t3))),
    optColonGroup_digits d2 t2 (':' :: d3 :: t3) hd2 ht2
      (by exact colon_not_digit : headNotDigit (':' :: d3 :: t3)),
    optColonGroup_digits_nil d3 t3 hd3 ht3]

theorem wrap32_eq_self {x : Int} (h0 : 0 ≤ x) (h1 : x ≤ 2147483647) : wrap32 x = x := by
  unfold wrap32
  have hge : 0 ≤ x + 2147483648 := by omega
  have hlt : x + 2147483648 < 4294967296 := by omega
  rw [Int.emod_eq_of_lt hge hlt]
  omega

theorem parseI32_le {ds : List Char} (h : digitsToNat ds ≤ 2147483647) :
    parseI32 ds = some ((digitsToNat ds : Nat) : Int) := by
  simp [parseI32, h]

/-- C8: the duration parser maps "1:38:42" to 5922 s, "08:42" to 522 s,
"142" to 142 s and "nan" to None; a string without a digit yields None;
and in general a match is read as HH:MM:SS, MM:SS or SS (stated for
inputs whose combined value fits in an i32, where the wrap-around is the
identity). -/
theorem c8_duration_parsing
    (s : String) (d1 d2 d3 : Char) (t1 t2 t3 : List Char)
    (hnod : ∀ c ∈ s.data, c.isDigit = false)
    (hd1 : d1.isDigit = true) (ht1 : ∀ c ∈ t1, c.isDigit = true)
    (hd2 : d2.isDigit = true) (ht2 : ∀ c ∈ t2, c.isDigit = true)
    (hd3 : d3.isDigit = true) (ht3 : ∀ c ∈ t3, c.isDigit = true)
    (hsum3 : 3600 * digitsToNat (d1 :: t1) + 60 * digitsToNat (d2 :: t2) +
      digitsToNat (d3 :: t3) ≤ 2147483647)
    (hsum2 : 60 * digitsToNat (d1 :: t1) + digitsToNat (d2 :: t2) ≤ 2147483647)
    (hb1 : digitsToNat (d1 :: t1) ≤ 2147483647) :
    duration_to_int (some "1:38:42") = some 5922 ∧
    duration_to_int (some "08:42") = some 522 ∧
    duration_to_int (some "142") = some 142 ∧
    duration_to_int (some "nan") = none ∧
    duration_to_int (some s) = none ∧
    duration_to_int
        (some (String.mk (d1 :: (t1 ++ ':' :: d2 :: (t2 ++ ':' :: d3 :: t3))))) =
      some ((digitsToNat (d1 :: t1) : Int) * 60 * 60 +
        (digitsToNat (d2 :: t2) : Int) * 60 + (digitsToNat (d3 :: t3) : Int)) ∧
    duration_to_int (some (String.mk (d1 :: (t1 ++ ':' :: d2 :: t2)))) =
      some ((digitsToNat (d1 :: t1) : Int) * 60 + (digitsToNat (d2 :: t2) : Int)) ∧
    duration_to_int (some (String.mk (d1 :: t1))) =
      some ((digitsToNat (d1 :: t1) : Int)) := by
  have ha3 : digitsToNat (d1 :: t1) ≤ 2147483647 := by omega
  have hb3 : digitsToNat (d2 :: t2) ≤ 2147483647 := by omega
  have hc3 : digitsToNat (d3 :: t3) ≤ 2147483647 := by omega
  refine ⟨by decide, by decide, by decide, by decide, ?_, ?_, ?_, ?_⟩
  · simp only [duration_to_int]
    rw [findFirstMatch_no_digit hnod]
  · have hm := findFirstMatch_three d1 d2 d3 t1 t2 t3 hd1 ht1 hd2 ht2 hd3 ht3
    have hdata : (String.mk (d1 :: (t1 ++ ':' :: d2 :: (t2 ++ ':' :: d3 :: t3)))).data =
        d1 :: (t1 ++ ':' :: d2 :: (t2 ++ ':' :: d3 :: t3)) := rfl
    simp only [duration_to_int]
    simp only [hm, parseI32_le ha3, parseI32_le hb3, parseI32_le hc3]
    have e1 : wrap32 ((digitsToNat (d1 :: t1) : Int) * 60) =
        (digitsToNat (d1 :: t1) : Int) * 60 :=
      wrap32_eq_self (by omega) (by omega)
    have e2 : wrap32 ((digitsToNat (d1 :: t1) : Int) * 60 * 60) =
        (digitsToNat (d1 :: t1) : Int) * 60 * 60 :=
      wrap32_eq_self (by omega) (by omega)
    have e3 : wrap32 ((digitsToNat (d2 :: t2) : Int) * 60) =
        (digitsToNat (d2 :: t2) : Int) * 60 :=
      wrap32_eq_self (by omega) (by omega)
    have e4 : wrap32 ((digitsToNat (d1 :: t1) : Int) * 60 * 60 +
        (digitsToNat (d2 :: t2) : Int) * 60) =
        (digitsToNat (d1 :: t1) : Int) * 60 * 60 +
          (digitsToNat (d2 :: t2) : Int) * 60 :=
      wrap32_eq_self (by omega) (by omega)
    have e5 : wrap32 ((digitsToNat (d1 :: t1) : Int) * 60 * 60 +
        (digitsToNat (d2 :: t2) : Int) * 60 + (digitsToNat (d3 :: t3) : Int)) =
        (digitsToNat (d1 :: t1) : Int) * 60 * 60 +
          (digitsToNat (d2 :: t2) : Int) * 60 + (digitsToNat (d3 :: t3) : Int) :=
      wrap32_eq_self (by omega) (by omega)
    rw [e1, e3, e2, e4, e5]
  · have hm := findFirstMatch_two d1 d2 t1 t2 hd1 ht1 hd2 ht2
    have hdata : (String.mk (d1 :: (t1 ++ ':' :: d2 :: t2))).data =
        d1 :: (t1 ++ ':' :: d2 :: t2) := rfl
    have ha2 : digitsToNat (d1 :: t1) ≤ 2147483647 := by omega
    have hb2 : digitsToNat (d2 :: t2) ≤ 2147483647 := by omega
    simp only [duration_to_int]
    simp only [hm, parseI32_le ha2, parseI32_le hb2]
    have e1 : wrap32 ((digitsToNat (d1 :: t1) : Int) * 60) =
        (digitsToNat (d1 :: t1) : Int) * 60 :=
      wrap32_eq_self (by omega) (by omega)
    have e2 : wrap32 ((digitsToNat (d1 :: t1) : Int) * 60 +
        (digitsToNat (d2 :: t2) : Int)) =
        (digitsToNat (d1 :: t1) : Int) * 60 + (digitsToNat (d2 :: t2) : Int) :=
      wrap32_eq_self (by omega) (by omega)
    rw [e1, e2]
  · have hm := findFirstMatch_one d1 t1 hd1 ht1
    have hdata : (String.mk (d1 :: t1)).data = d1 :: t1 := rfl
    simp only [duration_to_int]
    simp only [hm, parseI32_le hb1]

/-- Witness for `c8_duration_parsing` at "nan" and the digit groups of
"1:38:42". -/
theorem c8_duration_parsing_witness :
    (∀ c ∈ "nan".data, c.isDigit = false) ∧
    ('1').isDigit = true ∧
    ('3').isDigit = true ∧
    ('8').isDigit = true ∧
    (3600 * digitsToNat ['1'] + 60 * digitsToNat ['3', '8'] +
      digitsToNat ['4', '2'] ≤ 2147483647) ∧
    (duration_to_int (some "1:38:42") = some 5922 ∧
      duration_to_int (some "08:42") = some 522 ∧
      duration_to_int (some "142") = some 142 ∧
      duration_to_int (some "nan") = none ∧
      duration_to_int (some "nan") = none ∧
      duration_to_int
          (some (String.mk ('1' :: ([] ++ ':' :: '3' :: (['8'] ++ ':' :: '4' :: ['2']))))) =
        some ((digitsToNat ['1'] : Int) * 60 * 60 +
          (digitsToNat ['3', '8'] : Int) * 60 + (digitsToNat ['4', '2'] : Int)) ∧
      duration_to_int (some (String.mk ('1' :: ([] ++ ':' :: '3' :: ['8'])))) =
        some ((digitsToNat ['1'] : Int) * 60 + (digitsToNat ['3', '8'] : Int)) ∧
      duration_to_int (some (String.mk ('1' :: ([] : List Char)))) =
        some ((digitsToNat ['1'] : Int))) :=
  ⟨by decide, by decide, by decide, by decide, by decide,
   c8_duration_parsing "nan" '1' '3' '4' [] ['8'] ['2']
     (by decide) (by decide) (by decide) (by decide) (by decide) (by decide)
     (by decide) (by decide) (by decide) (by decide)⟩

/-! ### C9: seek clamping (src/player.rs `Player::seek`, lines 155-177) -/

/-- The player state slice `Player::seek` reads: the sink (none when
`sink.empty()`, otherwise the current stream position) and the assumed
duration, both in whole seconds (the granularity of the seek
arithmetic). -/
structure Player where
  sinkPos : Option Nat
  duration : Nat
deriving DecidableEq, Repr

/-- The reposition target computed by `Player::seek`
(src/player.rs:159-172): forward seeks cap at the duration, backward
seeks floor at zero. -/
def seekTarget (duration pos shift : Nat) (direction : Bool) : Nat :=
  if direction then
    (if pos + shift ≥ duration then duration else pos + shift)
  else
    (if pos ≥ shift then pos - shift else 0)

/-- The `PlayerMessage::Seek` dispatch of `Player::spawn_async`
(src/player.rs:88-92): a seek with an empty sink is a no-op, otherwise
the sink is repositioned to the seek target. -/
def handleSeek (p : Player) (shift : Nat) (direction : Bool) : Player :=
  match p.sinkPos with
  | none => p
  | some pos => { p with sinkPos := some (seekTarget p.duration pos shift direction) }

/-- C9 counterexample: a backward seek from a position beyond the assumed
duration lands beyond the duration — with position 5, duration 3 and
shift 1 the target is 4 ∉ [0, 3], refuting "the target always lies in
[0, d]". -/
theorem c9_backward_seek_beyond_duration :
    (handleSeek { sinkPos := some 5, duration := 3 } 1 false).sinkPos = some 4 ∧
    3 < 4 := by
  decide

/-- C9 (amended): with a loaded stream at position pos, a forward
Seek(shift) repositions to min(pos + shift, duration) — always within
[0, duration] — and a backward Seek repositions to pos - shift floored at
0, which lies within [0, duration] whenever pos itself does; a Seek with
no stream loaded is a no-op. -/
theorem c9_seek_clamps (p q : Player) (pos shift : Nat) (dir : Bool)
    (h : p.sinkPos = some pos) (hq : q.sinkPos = none) :
    (handleSeek p shift true).sinkPos = some (min (pos + shift) p.duration) ∧
    (handleSeek p shift false).sinkPos = some (pos - shift) ∧
    min (pos + shift) p.duration ≤ p.duration ∧
    (pos ≤ p.duration → pos - shift ≤ p.duration) ∧
    handleSeek q shift dir = q := by
  refine ⟨?_, ?_, by omega, fun hp => by omega, ?_⟩
  · simp only [handleSeek, h, seekTarget, if_true]
    have : (if pos + shift ≥ p.duration then p.duration else pos + shift) =
        min (pos + shift) p.duration := by
      split <;> omega
    rw [this]
  · simp only [handleSeek, h, seekTarget]
    have : (if pos ≥ shift then pos - shift else 0) = pos - shift := by
      split <;> omega
    simp only [Bool.false_eq_true, if_false, this]
  · simp only [handleSeek, hq]

/-- Witness for `c9_seek_clamps` at position 10, duration 20, shift 4. -/
theorem c9_seek_clamps_witness :
    (Player.mk (some 10) 20).sinkPos = some 10 ∧
    (Player.mk none 20).sinkPos = none ∧
    ((handleSeek (Player.mk (some 10) 20) 4 true).sinkPos =
        some (min (10 + 4) (Player.mk (some 10) 20).duration) ∧
      (handleSeek (Player.mk (some 10) 20) 4 false).sinkPos = some (10 - 4) ∧
      min (10 + 4) (Player.mk (some 10) 20).duration ≤
        (Player.mk (some 10) 20).duration ∧
      (10 ≤ (Player.mk (some 10) 20).duration →
        10 - 4 ≤ (Player.mk (some 10) 20).duration) ∧
      handleSeek (Player.mk none 20) 4 true = Player.mk none 20) :=
  ⟨rfl, rfl,
   c9_seek_clamps (Player.mk (some 10) 20) (Player.mk none 20) 10 4 true rfl rfl⟩

/-! ### C10: decrement-then-compare retry loops -/

/-- `usize` decrement with release-mode wrap-around. -/
def usizeSub1 (n : Nat) : Nat :=
  (n + (2 ^ 64 - 1)) % 2 ^ 64

/-- The retry loop shared by `get_feed_data` (src/feeds.rs:72-83),
`download_file` (src/downloads.rs:64-75) and `execute_request_get` /
`execute_request_post` (src/gpodder/net.rs:10-37, 48-75): attempt; on
success break with the response; on failure decrement the `usize` budget
and break with an error when it reaches 0.  `att i` is attempt `i`'s
outcome (`false` covering both transport failure and, for the net.rs
loops, a non-2xx status); `fuel` bounds the attempts examined, `none`
meaning the loop has not terminated within `fuel` attempts; a `some`
result carries the number of attempts performed and whether the loop
ended in success. -/
def retryRun (att : Nat → Bool) : Nat → Nat → Nat → Option (Nat × Bool)
  | _, _, 0 => none
  | i, budget, fuel + 1 =>
    if att i then some (i + 1, true)
    else if usizeSub1 budget = 0 then some (i + 1, false)
    else retryRun att (i + 1) (usizeSub1 budget) fuel

/-- The request loop of `get_feed_data` (src/feeds.rs:72-83). -/
def get_feed_data_loop (att : Nat → Bool) (maxRetries fuel : Nat) : Option (Nat × Bool) :=
  retryRun att 0 maxRetries fuel

/-- The request loop of `download_file` (src/downloads.rs:64-75). -/
def download_file_loop (att : Nat → Bool) (maxRetries fuel : Nat) : Option (Nat × Bool) :=
  retryRun att 0 maxRetries fuel

/-- The request loop of `execute_request_get` (src/gpodder/net.rs:48-75);
`execute_request_post` is identical. -/
def execute_request_get_loop (att : Nat → Bool) (maxRetries fuel : Nat) :
    Option (Nat × Bool) :=
  retryRun att 0 maxRetries fuel

theorem usizeSub1_pos {b : Nat} (h1 : 1 ≤ b) (h2 : b < 2 ^ 64) :
    usizeSub1 b = b - 1 := by
  unfold usizeSub1
  omega

theorem usizeSub1_zero : usizeSub1 0 = 2 ^ 64 - 1 := by
  unfold usizeSub1
  omega

theorem retryRun_all_fail {att : Nat → Bool} (hfail : ∀ j, att j = false) :
    ∀ (b i : Nat), 1 ≤ b → b < 2 ^ 64 → retryRun att i b b = some (i + b, false) := by
  intro b
  induction b with
  | zero => intro i h1 _; omega
  | succ k ih =>
      intro i h1 h2
      simp only [retryRun, hfail i, Bool.false_eq_true, if_false]
      by_cases hk : k = 0
      · subst hk
        rw [if_pos]
        · rw [usizeSub1_pos (by omega) h2]
      · have hs : usizeSub1 (k + 1) = k := by
          have := usizeSub1_pos (show 1 ≤ k + 1 by omega) h2
          omega
        rw [hs, if_neg hk]
        have hrec := ih (i + 1) (by omega) (by omega)
        have heq : i + 1 + k = i + (k + 1) := by omega
        rw [hrec, heq]

theorem retryRun_no_stop {att : Nat → Bool} (hfail : ∀ j, att j = false) :
    ∀ (fuel b i : Nat), 1 ≤ b → b < 2 ^ 64 → fuel < b → retryRun att i b fuel = none := by
  intro fuel
  induction fuel with
  | zero => intro b i _ _ _; rfl
  | succ f ih =>
      intro b i h1 h2 hf
      simp only [retryRun, hfail i, Bool.false_eq_true, if_false]
      have hs : usizeSub1 b = b - 1 := usizeSub1_pos h1 h2
      rw [hs, if_neg (by omega)]
      exact ih (b - 1) (i + 1) (by omega) (by omega) (by omega)

/-- C10: each retry loop decrements its `usize` budget before comparing
it with zero, so for every budget N ≥ 1 an all-failing run performs
exactly N attempts and then returns an error, while budget 0 underflows
the counter to 2^64 - 1 on the first failure and the loop does not
return an error within any number of attempts below 2^64. -/
theorem c10_retry_budget (att : Nat → Bool) (N fuel : Nat)
    (hN1 : 1 ≤ N) (hN2 : N < 2 ^ 64) (hfail : ∀ j, att j = false)
    (hfuel : fuel ≤ 2 ^ 64 - 1) :
    get_feed_data_loop att N N = some (N, false) ∧
    download_file_loop att N N = some (N, false) ∧
    execute_request_get_loop att N N = some (N, false) ∧
    usizeSub1 0 = 2 ^ 64 - 1 ∧
    get_feed_data_loop att 0 fuel = none ∧
    download_file_loop att 0 fuel = none ∧
    execute_request_get_loop att 0 fuel = none := by
  have hN : retryRun att 0 N N = some (N, false) := by
    have := retryRun_all_fail hfail N 0 hN1 hN2
    simpa using this
  have h0 : retryRun att 0 0 fuel = none := by
    cases fuel with
    | zero => rfl
    | succ f =>
        simp only [retryRun, hfail 0, Bool.false_eq_true, if_false]
        rw [usizeSub1_zero, if_neg (by norm_num)]
        exact retryRun_no_stop hfail f (2 ^ 64 - 1) 1 (by norm_num) (by norm_num)
          (by omega)
  exact ⟨hN, hN, hN, usizeSub1_zero, h0, h0, h0⟩

/-- Witness for `c10_retry_budget` with budget 3 and an all-failing
attempt stream. -/
theorem c10_retry_budget_witness :
    1 ≤ 3 ∧ 3 < 2 ^ 64 ∧ (∀ j : Nat, (fun _ => false) j = false) ∧
    (5 : Nat) ≤ 2 ^ 64 - 1 ∧
    (get_feed_data_loop (fun _ => false) 3 3 = some (3, false) ∧
      download_file_loop (fun _ => false) 3 3 = some (3, false) ∧
      execute_request_get_loop (fun _ => false) 3 3 = some (3, false) ∧
      usizeSub1 0 = 2 ^ 64 - 1 ∧
      get_feed_data_loop (fun _ => false) 0 5 = none ∧
      download_file_loop (fun _ => false) 0 5 = none ∧
      execute_request_get_loop (fun _ => false) 0 5 = none) :=
  ⟨by norm_num, by norm_num, fun _ => rfl, by norm_num,
   c10_retry_budget (fun _ => false) 3 5 (by norm_num) (by norm_num)
     (fun _ => rfl) (by norm_num)⟩

end Hullcaster
